import Mathlib

/-!
# Software single-step engine of the ARM `PlatformThread`

A shallow embedding of `PlatformThread::doStep`
(`src/plugins/DebuggerCore/unix/linux/arch/arm-generic/PlatformThread.cpp`).

* `edb::address_t` and `edb::reg_t` are 64-bit unsigned values: they are natural
  numbers here and every arithmetic result is reduced modulo `2 ^ 64`.
* The collaborators of `doStep` that live outside this file (register reader,
  byte fetcher, instruction decoder, `modifies_pc`, `is_executed`, the success of
  `add_breakpoint`, `ptrace_continue`) are the fields of `Env`.
* The mutable data `doStep` touches is `Machine`: the breakpoint table of the core
  and the `singleStepBreakpoint` handle of the thread.
* Every call of a collaborator with an effect is recorded, in order, in
  `Outcome.calls`.
-/

namespace DebuggerCorePlugin

/-! ## Data model -/

/-- Modes of `IDebugger::CPUMode` that `doStep` distinguishes. -/
inductive CPUMode where
  | ARM32
  | Thumb
  deriving DecidableEq, Repr

/-- Modelled from the spec: the encoding-type selector of a breakpoint
(`Breakpoint::TypeId`, declared in `Breakpoint.h`, which is not among the sources).
`Automatic` is the selector of a breakpoint nobody has called `set_type` on. -/
inductive TypeId where
  | Automatic
  | ARM32
  | Thumb2Byte
  deriving DecidableEq, Repr

/-- Modelled from the spec: one entry of the breakpoint table (`Breakpoint.h` is not
among the sources): address, enabled flag, one-time flag, internal flag and
encoding-type selector. -/
structure Breakpoint where
  address : Nat
  enabled : Bool
  one_time : Bool
  internal : Bool
  type : TypeId
  deriving DecidableEq, Repr

/-- Opcode tags of the decoder that `doStep` names; every other tag is `other`. -/
inductive ArmIns where
  | B
  | BL
  | BX
  | BLX
  | BXJ
  | other (id : Nat)
  deriving DecidableEq, Repr

/-- Register identifiers of the decoder: the sixteen general-purpose ones that the
`switch` of `doStep` lists, and every other identifier. -/
inductive ArmReg where
  | R0 | R1 | R2 | R3 | R4 | R5 | R6 | R7
  | R8 | R9 | R10 | R11 | R12 | R13 | R14 | R15
  | other (id : Nat)
  deriving DecidableEq, Repr

/-- Decoded operand: `is_immediate` holds of `imm`, `is_register` of `reg`, neither of
`other`. The immediate is the signed 32-bit field `operand->imm`. -/
inductive Operand where
  | imm (value : Int)
  | reg (r : ArmReg)
  | other
  deriving DecidableEq, Repr

/-- Decoded instruction, as far as `doStep` looks at it. -/
structure Instruction where
  operation : ArmIns
  operands : List Operand
  byte_size : Nat
  mnemonic : String
  deriving DecidableEq, Repr

/-- Number of decoded operands, `insn.operand_count()`. -/
def Instruction.operand_count (insn : Instruction) : Nat :=
  insn.operands.length

/-- Register snapshot that `get_state` fills in. `gp_register n` is `none` when the
returned `Register` is invalid. -/
structure State where
  empty : Bool
  instruction_pointer : Nat
  flags : Nat
  gp_register : Nat → Option Nat

/-- Failure kinds: one per error message of `doStep`, with the arguments of the
message, and `resume` for a failure reported by `ptrace_continue`. -/
inductive Failure where
  | failedToGetThreadState
  | jazelleState
  | thumb2ITBlock
  | intoJazelleState
  | notSupportedYet (mnemonic : String)
  | unexpectedForm (mnemonic : String) (opCount : Nat)
  | badOperandRegister (mnemonic : String) (r : ArmReg)
  | failedToGetRegister (regIndex : Nat)
  | unalignedAddress
  | indirectBranch
  | notKnownBranch (mnemonic : String)
  | singleStepBreakpointStillPresent
  | disabledBreakpointPresent (address : Nat)
  | failedToSetBreakpoint (address : Nat)
  | failedToDisassemble (pc : Nat)
  | failedToGetInstructionBytes (pc : Nat)
  | resume (code : Nat)
  deriving DecidableEq, Repr

/-- Result type `Status`: success, or a failure. -/
inductive Status where
  | ok
  | error (e : Failure)
  deriving DecidableEq, Repr

/-- Calls that `doStep` makes to its collaborators. -/
inductive Event where
  | get_state
  | get_instruction_bytes (pc : Nat)
  | decode (pc : Nat)
  | find_breakpoint (address : Nat)
  | add_breakpoint (address : Nat)
  | ptrace_continue (tid : Int) (status : Int)
  deriving DecidableEq, Repr

/-- Collaborators of `doStep`: what they answer during one call. -/
structure Env where
  /-- Snapshot produced by `get_state(&state)`. -/
  state : State
  /-- Answer of `core_->cpu_mode()`. -/
  cpu_mode : CPUMode
  /-- Bytes fetched by `edb::v1::get_instruction_bytes`; the returned size is the
  length, `0` when nothing could be read. -/
  get_instruction_bytes : Nat → List Nat
  /-- Decoder `edb::Instruction(buffer, buffer + size, pc)`; `none` when invalid. -/
  decode : List Nat → Nat → Option Instruction
  modifies_pc : Instruction → Bool
  is_executed : Instruction → State → Bool
  /-- Whether `core_->add_breakpoint(address)` returns a breakpoint. -/
  add_breakpoint_ok : Nat → Bool
  ptrace_continue : Int → Int → Status

/-- Mutable data: the breakpoint table of the core and the thread's handle of its
transient breakpoint (the address of the breakpoint it points to). -/
structure Machine where
  breakpoints : List Breakpoint
  singleStepBreakpoint : Option Nat
  deriving DecidableEq, Repr

/-- What one call of `doStep` leaves behind. -/
structure Outcome where
  status : Status
  machine : Machine
  calls : List Event
  deriving DecidableEq, Repr

/-! ## Constants and small helpers -/

def CPSR_Tbit : Nat := 1 <<< 5
def CPSR_ITbits72 : Nat := 1 <<< 10
def CPSR_ITmask72 : Nat := 0xfc00
def CPSR_Jbit : Nat := 1 <<< 24
def CPSR_ITbits10 : Nat := 1 <<< 25
def CPSR_ITmask10 : Nat := 0x06000000

/-- Reduction of an arithmetic result to the 64 bits of `edb::address_t`. -/
def wrapAddress (a : Nat) : Nat := a % 2 ^ 64

/-- The operation `addrAfterInsn &= ~1` on a 64-bit address. -/
def clearLowBit (a : Nat) : Nat := a &&& (2 ^ 64 - 2)

/-- The conversion `util::to_unsigned` of the 32-bit immediate field. -/
def to_unsigned (imm : Int) : Nat := (imm % 2 ^ 32).toNat

/-- The `switch(operand->reg)` of `doStep`: the canonical index of a register
identifier, `none` in the `default` case. -/
def regIndexOf : ArmReg → Option Nat
  | .R0 => some 0
  | .R1 => some 1
  | .R2 => some 2
  | .R3 => some 3
  | .R4 => some 4
  | .R5 => some 5
  | .R6 => some 6
  | .R7 => some 7
  | .R8 => some 8
  | .R9 => some 9
  | .R10 => some 10
  | .R11 => some 11
  | .R12 => some 12
  | .R13 => some 13
  | .R14 => some 14
  | .R15 => some 15
  | .other _ => none

/-- Modelled from the spec: `find(address)` of the breakpoint table
(`DebuggerCoreBase::find_breakpoint` is not among the sources). -/
def find_breakpoint (table : List Breakpoint) (address : Nat) : Option Breakpoint :=
  table.find? (fun bp => bp.address == address)

/-- Modelled from the spec: the breakpoint a successful `add(address)` creates
(`DebuggerCoreBase::add_breakpoint` and the constructor of `Breakpoint` are not among
the sources): enabled, neither one-time nor internal, selector not yet chosen. -/
def Breakpoint.create (address : Nat) : Breakpoint :=
  { address := address, enabled := true, one_time := false, internal := false,
    type := TypeId.Automatic }

def Breakpoint.set_type (bp : Breakpoint) (t : TypeId) : Breakpoint :=
  { bp with type := t }

def Breakpoint.set_one_time (bp : Breakpoint) (value : Bool) : Breakpoint :=
  { bp with one_time := value }

def Breakpoint.set_internal (bp : Breakpoint) (value : Bool) : Breakpoint :=
  { bp with internal := value }

/-! ## `doStep` -/

/-- Lines 234-244 of `doStep`: from the value of the operand register to the target.
`reg` is `reg.valueAsAddress()`. -/
def registerTarget (regIndex : Nat) (reg : Nat) : Except Failure (Nat × CPUMode) :=
  let addrAfterInsn := wrapAddress reg
  let addrAfterInsn := if regIndex = 15 then wrapAddress (addrAfterInsn + 4) else addrAfterInsn
  let targetMode := if addrAfterInsn &&& 1 ≠ 0 then CPUMode.Thumb else CPUMode.ARM32
  let addrAfterInsn := clearLowBit addrAfterInsn
  if addrAfterInsn &&& 0x3 ≠ 0 ∧ targetMode = CPUMode.Thumb then
    .error Failure.unalignedAddress
  else
    .ok (addrAfterInsn, targetMode)

/-- Lines 169-251 of `doStep`: the address and the mode after the instruction, or the
failure that `doStep` returns from inside the `if(modifies_pc ...)` block. -/
def resolveTarget (env : Env) (state : State) (insn : Instruction) :
    Except Failure (Nat × CPUMode) :=
  let op := insn.operation
  let addrAfterInsn := wrapAddress (state.instruction_pointer + insn.byte_size)
  let targetMode := env.cpu_mode
  if env.modifies_pc insn && env.is_executed insn state then
    if op = ArmIns.BXJ then
      .error Failure.intoJazelleState
    else
      let opCount := insn.operand_count
      if opCount = 0 then
        .error (Failure.notSupportedYet insn.mnemonic)
      else
        match op with
        | .BX | .BLX | .B | .BL =>
          match insn.operands with
          | [operand] =>
            match operand with
            | .imm value =>
              let addrAfterInsn := to_unsigned value
              let targetMode :=
                if op = ArmIns.BX ∨ op = ArmIns.BLX then
                  if targetMode = CPUMode.ARM32 then CPUMode.Thumb else CPUMode.ARM32
                else targetMode
              .ok (addrAfterInsn, targetMode)
            | .reg r =>
              match regIndexOf r with
              | none => .error (Failure.badOperandRegister insn.mnemonic r)
              | some regIndex =>
                match state.gp_register regIndex with
                | none => .error (Failure.failedToGetRegister regIndex)
                | some reg => registerTarget regIndex reg
            | .other => .error Failure.indirectBranch
          | _ => .error (Failure.unexpectedForm insn.mnemonic opCount)
        | _ => .error (Failure.notKnownBranch insn.mnemonic)
  else
    .ok (addrAfterInsn, targetMode)

/-- Lines 266-280 of `doStep`: the breakpoint that `add_breakpoint` returned, after
`set_type` (only when the target mode is not the current mode), `set_one_time(true)`
and `set_internal(true)`. The table shares the object, so this is its table entry. -/
def transientBreakpoint (env : Env) (addrAfterInsn : Nat) (targetMode : CPUMode) :
    Breakpoint :=
  let bp := Breakpoint.create addrAfterInsn
  let bp :=
    if targetMode ≠ env.cpu_mode then
      match targetMode with
      | .ARM32 => bp.set_type TypeId.ARM32
      | .Thumb => bp.set_type TypeId.Thumb2Byte
    else bp
  let bp := bp.set_one_time true
  bp.set_internal true

/-- Lines 253-282 of `doStep`: check the handle, look the target up in the table,
install the transient breakpoint when the table has none there, and resume. -/
def placeAndResume (env : Env) (m : Machine) (tid status : Int)
    (addrAfterInsn : Nat) (targetMode : CPUMode) (calls : List Event) : Outcome :=
  if m.singleStepBreakpoint.isSome then
    ⟨.error Failure.singleStepBreakpointStillPresent, m, calls⟩
  else
    let calls := calls ++ [Event.find_breakpoint addrAfterInsn]
    match find_breakpoint m.breakpoints addrAfterInsn with
    | some oldBP =>
      if !oldBP.enabled then
        ⟨.error (Failure.disabledBreakpointPresent addrAfterInsn), m, calls⟩
      else
        ⟨env.ptrace_continue tid status, m, calls ++ [Event.ptrace_continue tid status]⟩
    | none =>
      let calls := calls ++ [Event.add_breakpoint addrAfterInsn]
      if env.add_breakpoint_ok addrAfterInsn then
        ⟨env.ptrace_continue tid status,
          { breakpoints := transientBreakpoint env addrAfterInsn targetMode :: m.breakpoints,
            singleStepBreakpoint := some addrAfterInsn },
          calls ++ [Event.ptrace_continue tid status]⟩
      else
        ⟨.error (Failure.failedToSetBreakpoint addrAfterInsn), m, calls⟩

/-- The function `PlatformThread::doStep(tid, status)`. -/
def doStep (env : Env) (m : Machine) (tid status : Int) : Outcome :=
  let state := env.state
  if state.empty then
    ⟨.error Failure.failedToGetThreadState, m, [Event.get_state]⟩
  else
    let pc := state.instruction_pointer
    let flags := state.flags
    if flags &&& CPSR_Jbit ≠ 0 then
      ⟨.error Failure.jazelleState, m, [Event.get_state]⟩
    else if flags &&& CPSR_Tbit ≠ 0 ∧ flags &&& (CPSR_ITmask10 ||| CPSR_ITmask72) ≠ 0 then
      ⟨.error Failure.thumb2ITBlock, m, [Event.get_state]⟩
    else
      let buffer := env.get_instruction_bytes pc
      if buffer.length ≠ 0 then
        match env.decode buffer pc with
        | some insn =>
          let calls := [Event.get_state, Event.get_instruction_bytes pc, Event.decode pc]
          match resolveTarget env state insn with
          | .error e => ⟨.error e, m, calls⟩
          | .ok (addrAfterInsn, targetMode) =>
            placeAndResume env m tid status addrAfterInsn targetMode calls
        | none =>
          ⟨.error (Failure.failedToDisassemble pc), m,
            [Event.get_state, Event.get_instruction_bytes pc, Event.decode pc]⟩
      else
        ⟨.error (Failure.failedToGetInstructionBytes pc), m,
          [Event.get_state, Event.get_instruction_bytes pc]⟩

/-- Conditions of lines 145-166 under which `doStep` holds the decoded instruction
`insn`: the state was read, neither mode check refuses, bytes were fetched and the
decoder accepted them. -/
def decodesTo (env : Env) (insn : Instruction) : Prop :=
  env.state.empty = false ∧
  env.state.flags &&& CPSR_Jbit = 0 ∧
  ¬ (env.state.flags &&& CPSR_Tbit ≠ 0 ∧
      env.state.flags &&& (CPSR_ITmask10 ||| CPSR_ITmask72) ≠ 0) ∧
  (env.get_instruction_bytes env.state.instruction_pointer).length ≠ 0 ∧
  env.decode (env.get_instruction_bytes env.state.instruction_pointer)
    env.state.instruction_pointer = some insn

instance (env : Env) (insn : Instruction) : Decidable (decodesTo env insn) := by
  unfold decodesTo
  exact inferInstance

/-- Calls made up to and including the decoding of the instruction at `pc`. -/
def decodeCalls (pc : Nat) : List Event :=
  [Event.get_state, Event.get_instruction_bytes pc, Event.decode pc]

/-! ## `step` -/

/-- Values of `edb::EVENT_STATUS` (declared outside this file): the enumerator that
`step` names, and every other one. -/
inductive EVENT_STATUS where
  | DEBUG_EXCEPTION_NOT_HANDLED
  | other (id : Nat)
  deriving DecidableEq, Repr

/-- Fields of `PlatformThread` that the two `step` overloads read. -/
structure PlatformThread where
  tid_ : Int
  status_ : Int
  deriving DecidableEq, Repr

/-- The function `PlatformThread::step()`. The helper `resume_code` is declared
outside this file and is a parameter. -/
def step (resume_code : Int → Int) (env : Env) (m : Machine) (thread : PlatformThread) :
    Outcome :=
  doStep env m thread.tid_ (resume_code thread.status_)

/-- The function `PlatformThread::step(edb::EVENT_STATUS status)`. -/
def stepStatus (resume_code : Int → Int) (env : Env) (m : Machine) (thread : PlatformThread)
    (status : EVENT_STATUS) : Outcome :=
  let code :=
    if status = EVENT_STATUS.DEBUG_EXCEPTION_NOT_HANDLED then resume_code thread.status_ else 0
  doStep env m thread.tid_ code

/-! ## Concrete threads used to exercise the theorems -/

/-- Register file with `r0 = r0`, `r15 = pc` and every other register `0`. -/
def sampleRegisters (r0 pc : Nat) : Nat → Option Nat :=
  fun n => if n = 0 then some r0 else if n = 15 then some pc else if n < 16 then some 0 else none

/-- Thread stopped at `0x8000` with flags `flags` and `r0 = r0`, whose instruction
decodes to `insn`; `branches` is the common answer of `modifies_pc` and `is_executed`. -/
def sampleEnv (flags r0 : Nat) (mode : CPUMode) (insn : Instruction) (branches addOk : Bool)
    (resumeResult : Status) : Env :=
  { state := { empty := false, instruction_pointer := 0x8000, flags := flags,
               gp_register := sampleRegisters r0 0x8000 }
    cpu_mode := mode
    get_instruction_bytes := fun _ => [0, 0, 0, 0]
    decode := fun _ _ => some insn
    modifies_pc := fun _ => branches
    is_executed := fun _ _ => branches
    add_breakpoint_ok := fun _ => addOk
    ptrace_continue := fun _ _ => resumeResult }

/-- Instruction `mov r1, r2`, four bytes long. -/
def movInsn : Instruction :=
  { operation := ArmIns.other 0, operands := [Operand.reg ArmReg.R1, Operand.reg ArmReg.R2],
    byte_size := 4, mnemonic := "mov" }

/-- Instruction `bx r0`, four bytes long. -/
def bxR0 : Instruction :=
  { operation := ArmIns.BX, operands := [Operand.reg ArmReg.R0], byte_size := 4,
    mnemonic := "bx" }

/-- Instruction `bx pc`, four bytes long. -/
def bxPc : Instruction :=
  { operation := ArmIns.BX, operands := [Operand.reg ArmReg.R15], byte_size := 4,
    mnemonic := "bx" }

/-- Instruction `bl #0x9000`, four bytes long. -/
def blImm : Instruction :=
  { operation := ArmIns.BL, operands := [Operand.imm 0x9000], byte_size := 4,
    mnemonic := "bl" }

/-- Instruction `blx #0x9002`, four bytes long. -/
def blxImm : Instruction :=
  { operation := ArmIns.BLX, operands := [Operand.imm 0x9002], byte_size := 4,
    mnemonic := "blx" }

/-- Machine with an empty breakpoint table and no transient breakpoint. -/
def idleMachine : Machine :=
  { breakpoints := [], singleStepBreakpoint := none }

/-- User breakpoint at `address`: neither one-time nor internal. -/
def userBreakpoint (address : Nat) (enabled : Bool) : Breakpoint :=
  { address := address, enabled := enabled, one_time := false, internal := false,
    type := TypeId.Automatic }

/-- Instruction `bxj r0`, four bytes long. -/
def bxjR0 : Instruction :=
  { operation := ArmIns.BXJ, operands := [Operand.reg ArmReg.R0], byte_size := 4,
    mnemonic := "bxj" }

/-- Instruction `pop {pc}`, four bytes long: it modifies the PC and is no branch that
`doStep` names. -/
def popPc : Instruction :=
  { operation := ArmIns.other 1, operands := [Operand.reg ArmReg.R15], byte_size := 4,
    mnemonic := "pop" }

/-- Thread `7` whose last stop status is `1407` (stopped by signal 5). -/
def sampleThread : PlatformThread :=
  { tid_ := 7, status_ := 1407 }

/-- Stand-in for `resume_code`: the stop signal of a wait status, bits 8 to 15. -/
def sampleResumeCode (status : Int) : Int :=
  status / 256 % 256

/-- Thread as in `sampleEnv` whose instruction `insn` modifies the PC but is not
executed in the current condition. -/
def skippedEnv (insn : Instruction) : Env :=
  { sampleEnv 0x10 0 CPUMode.ARM32 insn true true Status.ok with
    is_executed := fun _ _ => false }

/-! ## Arithmetic of addresses and flags -/

theorem clearLowBit_eq (a : Nat) (h : a < 2 ^ 64) : clearLowBit a = a - a % 2 := by
  unfold clearLowBit
  have hdiv : (a &&& (2 ^ 64 - 2)) / 2 = a / 2 := by
    rw [Nat.and_div_two]
    have e : (2 ^ 64 - 2) / 2 = 2 ^ 63 - 1 := by decide
    rw [e, Nat.and_pow_two_sub_one_eq_mod]
    apply Nat.mod_eq_of_lt
    omega
  have hmod : (a &&& (2 ^ 64 - 2)) % 2 = 0 := by
    have t : (a &&& (2 ^ 64 - 2)).testBit 0 = false := by
      rw [Nat.testBit_and]
      have e : (2 ^ 64 - 2).testBit 0 = false := by decide
      rw [e, Bool.and_false]
    rcases Nat.mod_two_eq_zero_or_one (a &&& (2 ^ 64 - 2)) with h0 | h1
    · exact h0
    · rw [Nat.mod_two_eq_one_iff_testBit_zero, t] at h1
      cases h1
  omega

theorem and_three_eq (a : Nat) : a &&& 0x3 = a % 4 :=
  Nat.and_pow_two_sub_one_eq_mod a 2

theorem wrapAddress_of_lt (a : Nat) (h : a < 2 ^ 64) : wrapAddress a = a :=
  Nat.mod_eq_of_lt h

theorem and_eq_zero_iff_testBit (x mask : Nat) :
    x &&& mask = 0 ↔ ∀ i, mask.testBit i = true → x.testBit i = false := by
  constructor
  · intro h i hi
    have := Nat.testBit_and x mask i
    rw [h, Nat.zero_testBit, hi, Bool.and_true] at this
    exact this.symm
  · intro h
    apply Nat.eq_of_testBit_eq
    intro i
    rw [Nat.testBit_and, Nat.zero_testBit]
    cases hm : mask.testBit i
    · simp
    · simp [h i hm]

theorem and_Jbit_eq_zero_iff (flags : Nat) :
    flags &&& CPSR_Jbit = 0 ↔ flags.testBit 24 = false := by
  have e : CPSR_Jbit = 2 ^ 24 := by decide
  rw [and_eq_zero_iff_testBit, e]
  constructor
  · intro h
    exact h 24 Nat.testBit_two_pow_self
  · intro h i hi
    rw [Nat.testBit_two_pow] at hi
    have : 24 = i := of_decide_eq_true hi
    subst this
    exact h

theorem and_Tbit_eq_zero_iff (flags : Nat) :
    flags &&& CPSR_Tbit = 0 ↔ flags.testBit 5 = false := by
  have e : CPSR_Tbit = 2 ^ 5 := by decide
  rw [and_eq_zero_iff_testBit, e]
  constructor
  · intro h
    exact h 5 Nat.testBit_two_pow_self
  · intro h i hi
    rw [Nat.testBit_two_pow] at hi
    have : 5 = i := of_decide_eq_true hi
    subst this
    exact h

theorem ITmask_testBit (i : Nat) :
    (CPSR_ITmask10 ||| CPSR_ITmask72).testBit i = true ↔
      (10 ≤ i ∧ i ≤ 15) ∨ (25 ≤ i ∧ i ≤ 26) := by
  have e : (CPSR_ITmask10 ||| CPSR_ITmask72) = 0x0600fc00 := by decide
  rw [e]
  by_cases hi : i < 27
  · interval_cases i <;> simp <;> decide
  · have hlt : (0x0600fc00 : Nat) < 2 ^ i :=
      Nat.lt_of_lt_of_le (by decide : (0x0600fc00 : Nat) < 2 ^ 27)
        (Nat.pow_le_pow_right (by decide) (by omega))
    rw [Nat.testBit_lt_two_pow hlt]
    constructor
    · intro h
      cases h
    · intro h
      omega

theorem and_ITmask_eq_zero_iff (flags : Nat) :
    flags &&& (CPSR_ITmask10 ||| CPSR_ITmask72) = 0 ↔
      ∀ i, ((10 ≤ i ∧ i ≤ 15) ∨ (25 ≤ i ∧ i ≤ 26)) → flags.testBit i = false := by
  rw [and_eq_zero_iff_testBit]
  constructor
  · intro h i hi
    exact h i ((ITmask_testBit i).2 hi)
  · intro h i hi
    exact h i ((ITmask_testBit i).1 hi)

/-! ## Structure of `doStep` -/

theorem doStep_of_decodesTo (env : Env) (m : Machine) (tid status : Int) (insn : Instruction)
    (h : decodesTo env insn) :
    doStep env m tid status =
      match resolveTarget env env.state insn with
      | .error e => ⟨.error e, m, decodeCalls env.state.instruction_pointer⟩
      | .ok (addrAfterInsn, targetMode) =>
        placeAndResume env m tid status addrAfterInsn targetMode
          (decodeCalls env.state.instruction_pointer) := by
  obtain ⟨h1, h2, h3, h4, h5⟩ := h
  have h4 : env.get_instruction_bytes env.state.instruction_pointer ≠ [] := by
    intro e
    rw [e] at h4
    exact h4 rfl
  unfold doStep
  simp only [h1, h2, h5, decodeCalls]
  simp [h3, h4]

theorem decodesTo_of_flags (env : Env) (insn : Instruction)
    (hState : env.state.empty = false)
    (hJ : env.state.flags.testBit 24 = false)
    (hIT : ¬ (env.state.flags.testBit 5 = true ∧
      ∃ i, ((10 ≤ i ∧ i ≤ 15) ∨ (25 ≤ i ∧ i ≤ 26)) ∧ env.state.flags.testBit i = true))
    (hFetch : env.get_instruction_bytes env.state.instruction_pointer ≠ [])
    (hDecode : env.decode (env.get_instruction_bytes env.state.instruction_pointer)
      env.state.instruction_pointer = some insn) :
    decodesTo env insn := by
  refine ⟨hState, (and_Jbit_eq_zero_iff _).2 hJ, ?_, ?_, hDecode⟩
  · rintro ⟨hT, hI⟩
    apply hIT
    constructor
    · cases hb : env.state.flags.testBit 5
      · exact absurd ((and_Tbit_eq_zero_iff _).2 hb) hT
      · rfl
    · by_contra hno
      apply hI
      rw [and_ITmask_eq_zero_iff]
      intro i hi
      cases hb : env.state.flags.testBit i
      · rfl
      · exact absurd ⟨i, hi, hb⟩ hno
  · intro hlen
    exact hFetch (List.length_eq_zero.1 hlen)

theorem resolveTarget_of_not_taken (env : Env) (state : State) (insn : Instruction)
    (h : (env.modifies_pc insn && env.is_executed insn state) = false) :
    resolveTarget env state insn =
      .ok (wrapAddress (state.instruction_pointer + insn.byte_size), env.cpu_mode) := by
  unfold resolveTarget
  simp [h]

theorem find_breakpoint_eq_none (table : List Breakpoint) (address : Nat) :
    find_breakpoint table address = none ↔ ∀ bp ∈ table, bp.address ≠ address := by
  unfold find_breakpoint
  simp

theorem transientBreakpoint_eq (env : Env) (addrAfterInsn : Nat) (targetMode : CPUMode) :
    transientBreakpoint env addrAfterInsn targetMode =
      { address := addrAfterInsn
        enabled := true
        one_time := true
        internal := true
        type :=
          if targetMode = env.cpu_mode then TypeId.Automatic
          else match targetMode with
            | .ARM32 => TypeId.ARM32
            | .Thumb => TypeId.Thumb2Byte } := by
  unfold transientBreakpoint
  by_cases hm : targetMode = env.cpu_mode
  · simp [hm, Breakpoint.create, Breakpoint.set_one_time, Breakpoint.set_internal]
  · cases targetMode <;>
      simp [hm, Breakpoint.create, Breakpoint.set_one_time, Breakpoint.set_internal,
        Breakpoint.set_type]

theorem placeAndResume_install (env : Env) (m : Machine) (tid status : Int)
    (addrAfterInsn : Nat) (targetMode : CPUMode) (calls : List Event)
    (hHandle : m.singleStepBreakpoint = none)
    (hFree : find_breakpoint m.breakpoints addrAfterInsn = none)
    (hAdd : env.add_breakpoint_ok addrAfterInsn = true) :
    placeAndResume env m tid status addrAfterInsn targetMode calls =
      { status := env.ptrace_continue tid status
        machine :=
          { breakpoints := transientBreakpoint env addrAfterInsn targetMode :: m.breakpoints
            singleStepBreakpoint := some addrAfterInsn }
        calls := calls ++ [Event.find_breakpoint addrAfterInsn,
          Event.add_breakpoint addrAfterInsn, Event.ptrace_continue tid status] } := by
  unfold placeAndResume
  simp [hHandle, hFree, hAdd]

/-! ## Sequential instructions -/

/-- C1: a thread in a supported state (flags bit 24 clear, not bit 5 together with an
IT bit) whose instruction at program counter `A` decodes with byte length `L` and does
not modify the PC, with no transient breakpoint outstanding, no breakpoint at `A + L`
and `add_breakpoint` succeeding: `doStep` looks `A + L` up, adds exactly one
breakpoint, at `A + L`, with the encoding type of a fresh breakpoint, marks it
one-time and internal, records it as the transient breakpoint, then resumes the
thread and returns the result of the resume. -/
theorem doStep_sequential_instruction (env : Env) (m : Machine) (tid status : Int)
    (insn : Instruction) (A L : Nat)
    (hState : env.state.empty = false)
    (hA : env.state.instruction_pointer = A)
    (hL : insn.byte_size = L)
    (hJ : env.state.flags.testBit 24 = false)
    (hIT : ¬ (env.state.flags.testBit 5 = true ∧
      ∃ i, ((10 ≤ i ∧ i ≤ 15) ∨ (25 ≤ i ∧ i ≤ 26)) ∧ env.state.flags.testBit i = true))
    (hFetch : env.get_instruction_bytes A ≠ [])
    (hDecode : env.decode (env.get_instruction_bytes A) A = some insn)
    (hSeq : env.modifies_pc insn = false)
    (hRange : A + L < 2 ^ 64)
    (hHandle : m.singleStepBreakpoint = none)
    (hFree : ∀ bp ∈ m.breakpoints, bp.address ≠ A + L)
    (hAdd : env.add_breakpoint_ok (A + L) = true) :
    doStep env m tid status =
      { status := env.ptrace_continue tid status
        machine :=
          { breakpoints :=
              { Breakpoint.create (A + L) with one_time := true, internal := true }
                :: m.breakpoints
            singleStepBreakpoint := some (A + L) }
        calls := [Event.get_state, Event.get_instruction_bytes A, Event.decode A,
          Event.find_breakpoint (A + L), Event.add_breakpoint (A + L),
          Event.ptrace_continue tid status] } := by
  subst hA hL
  have hd : decodesTo env insn := decodesTo_of_flags env insn hState hJ hIT hFetch hDecode
  rw [doStep_of_decodesTo env m tid status insn hd,
    resolveTarget_of_not_taken env env.state insn (by simp [hSeq]),
    wrapAddress_of_lt _ hRange]
  simp only []
  rw [placeAndResume_install env m tid status _ _ _ hHandle
    ((find_breakpoint_eq_none _ _).2 hFree) hAdd, transientBreakpoint_eq]
  simp [decodeCalls, Breakpoint.create]

theorem doStep_sequential_instruction_witness :
    doStep (sampleEnv 0x10 0 CPUMode.ARM32 movInsn false true Status.ok) idleMachine 1 0 =
      { status := Status.ok
        machine :=
          { breakpoints :=
              [{ address := 0x8004, enabled := true, one_time := true, internal := true,
                 type := TypeId.Automatic }]
            singleStepBreakpoint := some 0x8004 }
        calls := [Event.get_state, Event.get_instruction_bytes 0x8000, Event.decode 0x8000,
          Event.find_breakpoint 0x8004, Event.add_breakpoint 0x8004,
          Event.ptrace_continue 1 0] } :=
  doStep_sequential_instruction (sampleEnv 0x10 0 CPUMode.ARM32 movInsn false true Status.ok)
    idleMachine 1 0 movInsn 0x8000 4 rfl rfl rfl (by decide)
    (fun h => absurd h.1 (by decide)) (by decide) rfl rfl (by decide) rfl
    (by intro bp hbp; cases hbp) rfl

/-! ## Branches through a register -/

theorem registerTarget_eq (regIndex reg w : Nat)
    (hw : w = if regIndex = 15 then reg + 4 else reg) (hreg : reg < 2 ^ 64)
    (hrange : w < 2 ^ 64) :
    registerTarget regIndex reg =
      if w % 2 = 1 ∧ (w - w % 2) % 4 ≠ 0 then .error Failure.unalignedAddress
      else .ok (w - w % 2, if w % 2 = 1 then CPUMode.Thumb else CPUMode.ARM32) := by
  have e : (if regIndex = 15 then wrapAddress (wrapAddress reg + 4) else wrapAddress reg) = w := by
    rw [wrapAddress_of_lt reg hreg]
    by_cases h15 : regIndex = 15
    · simp only [h15, if_true] at hw ⊢
      rw [← hw]
      exact wrapAddress_of_lt w hrange
    · simp only [h15, if_false] at hw ⊢
      exact hw.symm
  unfold registerTarget
  simp only [e, clearLowBit_eq w hrange, and_three_eq, Nat.and_one_is_mod]
  rcases Nat.mod_two_eq_zero_or_one w with h0 | h1
  · simp [h0]
  · simp [h1]

theorem resolveTarget_register (env : Env) (state : State) (insn : Instruction)
    (r : ArmReg) (regIndex reg : Nat)
    (hTaken : env.modifies_pc insn = true) (hExec : env.is_executed insn state = true)
    (hOp : insn.operation = ArmIns.B ∨ insn.operation = ArmIns.BL ∨
      insn.operation = ArmIns.BX ∨ insn.operation = ArmIns.BLX)
    (hOperands : insn.operands = [Operand.reg r])
    (hIndex : regIndexOf r = some regIndex)
    (hReg : state.gp_register regIndex = some reg) :
    resolveTarget env state insn = registerTarget regIndex reg := by
  unfold resolveTarget
  rcases hOp with h | h | h | h <;>
    simp [hTaken, hExec, h, hOperands, hIndex, hReg, Instruction.operand_count]

theorem regIndexOf_le (r : ArmReg) (regIndex : Nat) (h : regIndexOf r = some regIndex) :
    regIndex ≤ 15 := by
  cases r <;> simp [regIndexOf] at h <;> omega

/-- C2 (as amended): an executed BX/BLX with exactly one register operand mapped to
r0..r14 holding `v`: when the low bit of `v` is 1 and the cleared address `v - 1` is a
multiple of 4, the target is `v - 1` in Thumb mode; when the low bit of `v` is 0, the
target is `v` (low bit already clear) in ARM32 mode. -/
theorem resolveTarget_interworking_register (env : Env) (state : State)
    (insn : Instruction) (r : ArmReg) (regIndex v : Nat)
    (hTaken : env.modifies_pc insn = true) (hExec : env.is_executed insn state = true)
    (hOp : insn.operation = ArmIns.BX ∨ insn.operation = ArmIns.BLX)
    (hOperands : insn.operands = [Operand.reg r])
    (hIndex : regIndexOf r = some regIndex) (hNotPc : regIndex ≤ 14)
    (hReg : state.gp_register regIndex = some v) (hv : v < 2 ^ 64) :
    (v % 2 = 1 → (v - v % 2) % 4 = 0 →
      resolveTarget env state insn = .ok (v - v % 2, CPUMode.Thumb)) ∧
    (v % 2 = 0 → resolveTarget env state insn = .ok (v - v % 2, CPUMode.ARM32)) := by
  have hres := resolveTarget_register env state insn r regIndex v hTaken hExec
    (by rcases hOp with h | h <;> simp [h]) hOperands hIndex hReg
  have hne : regIndex ≠ 15 := by omega
  rw [hres, registerTarget_eq regIndex v v (by simp [hne]) hv hv]
  constructor
  · intro h1 h4
    rw [if_neg (fun h => h.2 h4), if_pos h1]
  · intro h0
    rw [if_neg (fun h => by omega), if_neg (by omega)]

theorem resolveTarget_interworking_register_witness :
    resolveTarget (sampleEnv 0x10 0x9001 CPUMode.ARM32 bxR0 true true Status.ok)
        (sampleEnv 0x10 0x9001 CPUMode.ARM32 bxR0 true true Status.ok).state bxR0
      = .ok (0x9000, CPUMode.Thumb) :=
  (resolveTarget_interworking_register
    (sampleEnv 0x10 0x9001 CPUMode.ARM32 bxR0 true true Status.ok)
    (sampleEnv 0x10 0x9001 CPUMode.ARM32 bxR0 true true Status.ok).state bxR0 ArmReg.R0 0 0x9001
    rfl rfl (Or.inl rfl) rfl rfl (by decide) rfl (by decide)).1 (by decide) (by decide)

/-- C2 (as stated) fails: `bx r0` with `r0 = 0x8003` has the low bit set, yet the step
does not resolve to Thumb mode at `0x8002`; it is refused as unaligned. -/
theorem interworking_register_low_bit_counterexample :
    0x8003 % 2 = 1 ∧
    resolveTarget (sampleEnv 0x10 0x8003 CPUMode.ARM32 bxR0 true true Status.ok)
        (sampleEnv 0x10 0x8003 CPUMode.ARM32 bxR0 true true Status.ok).state bxR0
      = .error Failure.unalignedAddress ∧
    doStep (sampleEnv 0x10 0x8003 CPUMode.ARM32 bxR0 true true Status.ok) idleMachine 1 0 =
      { status := Status.error Failure.unalignedAddress
        machine := idleMachine
        calls := decodeCalls 0x8000 } := by
  refine ⟨by decide, ?_, by decide⟩
  rfl

/-- C3: an executed branch (B, BL, BX, BLX) with a single register operand whose
resolved value `w` (the register value, plus 4 when the register is the PC) has low
bit 1 and whose address after clearing the low bit is not a multiple of 4: `doStep`
returns the unaligned-target failure after the decoding; the breakpoint table and the
transient-breakpoint handle are as before, and no resume is issued. -/
theorem doStep_unaligned_target (env : Env) (m : Machine) (tid status : Int)
    (insn : Instruction) (r : ArmReg) (regIndex v w : Nat)
    (hDecoded : decodesTo env insn)
    (hTaken : env.modifies_pc insn = true) (hExec : env.is_executed insn env.state = true)
    (hOp : insn.operation = ArmIns.B ∨ insn.operation = ArmIns.BL ∨
      insn.operation = ArmIns.BX ∨ insn.operation = ArmIns.BLX)
    (hOperands : insn.operands = [Operand.reg r])
    (hIndex : regIndexOf r = some regIndex)
    (hReg : env.state.gp_register regIndex = some v)
    (hw : w = if regIndex = 15 then v + 4 else v) (hRange : w < 2 ^ 64)
    (hLow : w % 2 = 1) (hAlign : (w - w % 2) % 4 ≠ 0) :
    doStep env m tid status =
      { status := Status.error Failure.unalignedAddress
        machine := m
        calls := [Event.get_state, Event.get_instruction_bytes env.state.instruction_pointer,
          Event.decode env.state.instruction_pointer] } := by
  have hv : v < 2 ^ 64 := by
    by_cases h15 : regIndex = 15
    · simp only [h15, if_true] at hw
      omega
    · simp only [h15, if_false] at hw
      omega
  rw [doStep_of_decodesTo env m tid status insn hDecoded,
    resolveTarget_register env env.state insn r regIndex v hTaken hExec hOp hOperands hIndex hReg,
    registerTarget_eq regIndex v w hw hv hRange, if_pos ⟨hLow, hAlign⟩]
  rfl

theorem doStep_unaligned_target_witness :
    doStep (sampleEnv 0x10 0x8003 CPUMode.ARM32 bxR0 true true Status.ok) idleMachine 1 0 =
      { status := Status.error Failure.unalignedAddress
        machine := idleMachine
        calls := [Event.get_state, Event.get_instruction_bytes 0x8000, Event.decode 0x8000] } :=
  doStep_unaligned_target (sampleEnv 0x10 0x8003 CPUMode.ARM32 bxR0 true true Status.ok)
    idleMachine 1 0 bxR0 ArmReg.R0 0 0x8003 0x8003 (by decide) rfl rfl
    (Or.inr (Or.inr (Or.inl rfl))) rfl rfl rfl (by decide) (by decide) (by decide) (by decide)

/-- C8: an executed BX/BLX whose single register operand holds `v`, with `v + 4`
representable as an address. When the register is the program counter (index 15), mode
and address come from exactly `v + 4`: Thumb iff the low bit of `v + 4` is 1, address
`v + 4` with the low bit cleared (a Thumb target that is not a multiple of 4 being
refused as unaligned). For r0..r14 the same is computed from `v` itself. -/
theorem resolveTarget_register_pc_offset (env : Env) (state : State)
    (insn : Instruction) (r : ArmReg) (regIndex v : Nat)
    (hTaken : env.modifies_pc insn = true) (hExec : env.is_executed insn state = true)
    (hOp : insn.operation = ArmIns.BX ∨ insn.operation = ArmIns.BLX)
    (hOperands : insn.operands = [Operand.reg r])
    (hIndex : regIndexOf r = some regIndex)
    (hReg : state.gp_register regIndex = some v) (hRange : v + 4 < 2 ^ 64) :
    (regIndex = 15 →
      resolveTarget env state insn =
        if (v + 4) % 2 = 1 ∧ (v + 4 - (v + 4) % 2) % 4 ≠ 0 then
          .error Failure.unalignedAddress
        else
          .ok (v + 4 - (v + 4) % 2,
            if (v + 4) % 2 = 1 then CPUMode.Thumb else CPUMode.ARM32)) ∧
    (regIndex ≤ 14 →
      resolveTarget env state insn =
        if v % 2 = 1 ∧ (v - v % 2) % 4 ≠ 0 then
          .error Failure.unalignedAddress
        else
          .ok (v - v % 2, if v % 2 = 1 then CPUMode.Thumb else CPUMode.ARM32)) := by
  have hres := resolveTarget_register env state insn r regIndex v hTaken hExec
    (by rcases hOp with h | h <;> simp [h]) hOperands hIndex hReg
  constructor
  · intro h15
    rw [hres, registerTarget_eq regIndex v (v + 4) (by simp [h15]) (by omega) hRange]
  · intro h14
    have hne : regIndex ≠ 15 := by omega
    rw [hres, registerTarget_eq regIndex v v (by simp [hne]) (by omega) (by omega)]

theorem resolveTarget_register_pc_offset_witness :
    resolveTarget (sampleEnv 0x30 0 CPUMode.Thumb bxPc true true Status.ok)
        (sampleEnv 0x30 0 CPUMode.Thumb bxPc true true Status.ok).state bxPc
      = .ok (0x8004, CPUMode.ARM32) :=
  (resolveTarget_register_pc_offset (sampleEnv 0x30 0 CPUMode.Thumb bxPc true true Status.ok)
    (sampleEnv 0x30 0 CPUMode.Thumb bxPc true true Status.ok).state bxPc ArmReg.R15 15 0x8000
    rfl rfl (Or.inl rfl) rfl rfl rfl (by decide)).1 rfl

/-! ## Branches to an immediate -/

/-- C10: an executed B/BL/BX/BLX with exactly one immediate operand `imm`: the target
address is `imm` read as an unsigned 32-bit number, whatever its low bits; for B and
BL the target mode is the current mode, for BX and BLX it is the other mode. -/
theorem resolveTarget_immediate (env : Env) (state : State) (insn : Instruction)
    (imm : Int)
    (hTaken : env.modifies_pc insn = true) (hExec : env.is_executed insn state = true)
    (hOperands : insn.operands = [Operand.imm imm]) :
    (insn.operation = ArmIns.B ∨ insn.operation = ArmIns.BL →
      resolveTarget env state insn = .ok ((imm % 2 ^ 32).toNat, env.cpu_mode)) ∧
    (insn.operation = ArmIns.BX ∨ insn.operation = ArmIns.BLX →
      resolveTarget env state insn =
        .ok ((imm % 2 ^ 32).toNat,
          match env.cpu_mode with
          | .ARM32 => CPUMode.Thumb
          | .Thumb => CPUMode.ARM32)) := by
  constructor
  · intro hOp
    unfold resolveTarget
    rcases hOp with h | h <;>
      simp [hTaken, hExec, h, hOperands, Instruction.operand_count, to_unsigned]
  · intro hOp
    unfold resolveTarget
    rcases hOp with h | h <;> cases hm : env.cpu_mode <;>
      simp [hTaken, hExec, h, hOperands, Instruction.operand_count, to_unsigned, hm]

theorem resolveTarget_immediate_witness :
    resolveTarget (sampleEnv 0x10 0 CPUMode.ARM32 blxImm true true Status.ok)
        (sampleEnv 0x10 0 CPUMode.ARM32 blxImm true true Status.ok).state blxImm
      = .ok (0x9002, CPUMode.Thumb) :=
  (resolveTarget_immediate (sampleEnv 0x10 0 CPUMode.ARM32 blxImm true true Status.ok)
    (sampleEnv 0x10 0 CPUMode.ARM32 blxImm true true Status.ok).state blxImm 0x9002
    rfl rfl rfl).2 (Or.inr rfl)

/-! ## Rejected execution states -/

/-- C9: when the state was read and bit 24 of the flags is set, whatever the other
bits, `doStep` fails with the Jazelle-state error; the only call made is the state
read (no bytes fetched, nothing decoded, no breakpoint added, no resume) and the
breakpoint table and the handle are as before. -/
theorem doStep_jazelle_state (env : Env) (m : Machine) (tid status : Int)
    (hState : env.state.empty = false) (hJ : env.state.flags.testBit 24 = true) :
    doStep env m tid status =
      { status := Status.error Failure.jazelleState
        machine := m
        calls := [Event.get_state] } := by
  have hne : env.state.flags &&& CPSR_Jbit ≠ 0 := by
    intro h0
    rw [and_Jbit_eq_zero_iff, hJ] at h0
    cases h0
  unfold doStep
  simp [hState, hne]

theorem doStep_jazelle_state_witness :
    doStep (sampleEnv 0x01000030 0 CPUMode.Thumb movInsn false true Status.ok) idleMachine 1 0 =
      { status := Status.error Failure.jazelleState
        machine := idleMachine
        calls := [Event.get_state] } :=
  doStep_jazelle_state (sampleEnv 0x01000030 0 CPUMode.Thumb movInsn false true Status.ok)
    idleMachine 1 0 rfl (by decide)

/-! ## Case analysis of `doStep` -/

theorem placeAndResume_stale (env : Env) (m : Machine) (tid status : Int)
    (addrAfterInsn : Nat) (targetMode : CPUMode) (calls : List Event)
    (hHandle : m.singleStepBreakpoint.isSome = true) :
    placeAndResume env m tid status addrAfterInsn targetMode calls =
      ⟨.error Failure.singleStepBreakpointStillPresent, m, calls⟩ := by
  unfold placeAndResume
  simp [hHandle]

theorem placeAndResume_disabled (env : Env) (m : Machine) (tid status : Int)
    (addrAfterInsn : Nat) (targetMode : CPUMode) (calls : List Event) (oldBP : Breakpoint)
    (hHandle : m.singleStepBreakpoint = none)
    (hFind : find_breakpoint m.breakpoints addrAfterInsn = some oldBP)
    (hDisabled : oldBP.enabled = false) :
    placeAndResume env m tid status addrAfterInsn targetMode calls =
      ⟨.error (Failure.disabledBreakpointPresent addrAfterInsn), m,
        calls ++ [Event.find_breakpoint addrAfterInsn]⟩ := by
  unfold placeAndResume
  simp [hHandle, hFind, hDisabled]

theorem placeAndResume_enabled (env : Env) (m : Machine) (tid status : Int)
    (addrAfterInsn : Nat) (targetMode : CPUMode) (calls : List Event) (oldBP : Breakpoint)
    (hHandle : m.singleStepBreakpoint = none)
    (hFind : find_breakpoint m.breakpoints addrAfterInsn = some oldBP)
    (hEnabled : oldBP.enabled = true) :
    placeAndResume env m tid status addrAfterInsn targetMode calls =
      ⟨env.ptrace_continue tid status, m,
        calls ++ [Event.find_breakpoint addrAfterInsn, Event.ptrace_continue tid status]⟩ := by
  unfold placeAndResume
  simp [hHandle, hFind, hEnabled]

theorem placeAndResume_add_failed (env : Env) (m : Machine) (tid status : Int)
    (addrAfterInsn : Nat) (targetMode : CPUMode) (calls : List Event)
    (hHandle : m.singleStepBreakpoint = none)
    (hFree : find_breakpoint m.breakpoints addrAfterInsn = none)
    (hAdd : env.add_breakpoint_ok addrAfterInsn = false) :
    placeAndResume env m tid status addrAfterInsn targetMode calls =
      ⟨.error (Failure.failedToSetBreakpoint addrAfterInsn), m,
        calls ++ [Event.find_breakpoint addrAfterInsn, Event.add_breakpoint addrAfterInsn]⟩ := by
  unfold placeAndResume
  simp [hHandle, hFree, hAdd]

theorem decodesTo_unique (env : Env) (insn insn' : Instruction)
    (h : decodesTo env insn) (h' : decodesTo env insn') : insn = insn' := by
  have e := h.2.2.2.2
  rw [h'.2.2.2.2] at e
  exact (Option.some.inj e).symm

theorem doStep_cases (env : Env) (m : Machine) (tid status : Int) :
    ((¬ ∃ insn a mode, decodesTo env insn ∧
        resolveTarget env env.state insn = .ok (a, mode)) ∧
      ∃ e calls, doStep env m tid status = ⟨.error e, m, calls⟩ ∧
        ∀ t s, Event.ptrace_continue t s ∉ calls) ∨
    (∃ insn a mode, decodesTo env insn ∧
      resolveTarget env env.state insn = .ok (a, mode) ∧
      doStep env m tid status =
        placeAndResume env m tid status a mode
          (decodeCalls env.state.instruction_pointer)) := by
  by_cases hE : env.state.empty = false
  swap
  · left
    refine ⟨fun ⟨_, _, _, hd, _⟩ => hE hd.1, Failure.failedToGetThreadState,
      [Event.get_state], ?_, by simp⟩
    unfold doStep
    simp [hE]
  by_cases hJ : env.state.flags &&& CPSR_Jbit = 0
  swap
  · left
    refine ⟨fun ⟨_, _, _, hd, _⟩ => hJ hd.2.1, Failure.jazelleState,
      [Event.get_state], ?_, by simp⟩
    unfold doStep
    simp [hE, hJ]
  by_cases hIT : env.state.flags &&& CPSR_Tbit ≠ 0 ∧
      env.state.flags &&& (CPSR_ITmask10 ||| CPSR_ITmask72) ≠ 0
  · left
    refine ⟨fun ⟨_, _, _, hd, _⟩ => hd.2.2.1 hIT, Failure.thumb2ITBlock,
      [Event.get_state], ?_, by simp⟩
    unfold doStep
    simp only [hE, hJ]
    simp [hIT]
  by_cases hB : (env.get_instruction_bytes env.state.instruction_pointer).length ≠ 0
  swap
  · left
    refine ⟨fun ⟨_, _, _, hd, _⟩ => hB hd.2.2.2.1,
      Failure.failedToGetInstructionBytes env.state.instruction_pointer,
      [Event.get_state, Event.get_instruction_bytes env.state.instruction_pointer], ?_,
      by simp⟩
    have hnil : env.get_instruction_bytes env.state.instruction_pointer = [] :=
      List.length_eq_zero.1 (not_not.1 hB)
    unfold doStep
    simp only [hE, hJ]
    simp [hIT, hnil]
  cases hD : env.decode (env.get_instruction_bytes env.state.instruction_pointer)
      env.state.instruction_pointer with
  | none =>
    left
    refine ⟨fun ⟨_, _, _, hd, _⟩ => ?_,
      Failure.failedToDisassemble env.state.instruction_pointer,
      decodeCalls env.state.instruction_pointer, ?_, by simp [decodeCalls]⟩
    · have e := hd.2.2.2.2
      rw [hD] at e
      cases e
    · have hne : env.get_instruction_bytes env.state.instruction_pointer ≠ [] := by
        intro e
        rw [e] at hB
        exact hB rfl
      unfold doStep
      simp only [hE, hJ, hD, decodeCalls]
      simp [hIT, hne]
  | some insn =>
    have hd : decodesTo env insn := ⟨hE, hJ, hIT, hB, hD⟩
    rw [doStep_of_decodesTo env m tid status insn hd]
    cases hR : resolveTarget env env.state insn with
    | error e =>
      left
      refine ⟨?_, e, decodeCalls env.state.instruction_pointer, rfl, by simp [decodeCalls]⟩
      rintro ⟨insn', a, mode, hd', hr'⟩
      have := decodesTo_unique env insn insn' hd hd'
      subst this
      rw [hR] at hr'
      cases hr'
    | ok p =>
      right
      obtain ⟨a, mode⟩ := p
      exact ⟨insn, a, mode, hd, hR, rfl⟩

theorem filter_address_of_find_none (table : List Breakpoint) (a : Nat)
    (h : find_breakpoint table a = none) :
    table.filter (fun b => decide (b.address = a)) = [] := by
  rw [find_breakpoint_eq_none] at h
  rw [List.filter_eq_nil_iff]
  intro b hb
  simpa using h b hb

theorem filter_address_of_find_some (table : List Breakpoint) (a : Nat) (old : Breakpoint)
    (hUnique : (table.map Breakpoint.address).Nodup)
    (h : find_breakpoint table a = some old) :
    table.filter (fun b => decide (b.address = a)) = [old] := by
  induction table with
  | nil => simp [find_breakpoint] at h
  | cons b t ih =>
    rw [List.map_cons, List.nodup_cons] at hUnique
    by_cases hb : b.address = a
    · have hold : b = old := by
        simpa [find_breakpoint, List.find?_cons, hb] using h
      have hnone : find_breakpoint t a = none := by
        rw [find_breakpoint_eq_none]
        intro x hx hxa
        apply hUnique.1
        rw [hb, ← hxa]
        exact List.mem_map_of_mem _ hx
      rw [List.filter_cons, if_pos (by simpa using hb), filter_address_of_find_none t a hnone,
        hold]
    · have hfind : find_breakpoint t a = some old := by
        simpa [find_breakpoint, List.find?_cons, hb] using h
      rw [List.filter_cons, if_neg (by simpa using hb)]
      exact ih hUnique.2 hfind

/-! ## Breakpoint already present at the target -/

/-- C5: a `doStep` call that decodes `insn` and resolves the target `a`, with no
transient breakpoint outstanding, when the table already holds `oldBP` at `a`. If
`oldBP` is disabled, the step fails with the breakpoint-conflict error right after the
lookup; table and handle are as before and nothing is added or resumed. If `oldBP` is
enabled, the step makes no `add_breakpoint` call, resumes the thread and returns the
result of the resume, table and handle as before. -/
theorem doStep_existing_breakpoint (env : Env) (m : Machine) (tid status : Int)
    (insn : Instruction) (a : Nat) (mode : CPUMode) (oldBP : Breakpoint)
    (hDecoded : decodesTo env insn)
    (hResolved : resolveTarget env env.state insn = .ok (a, mode))
    (hHandle : m.singleStepBreakpoint = none)
    (hFind : find_breakpoint m.breakpoints a = some oldBP) :
    (oldBP.enabled = false →
      doStep env m tid status =
        { status := Status.error (Failure.disabledBreakpointPresent a)
          machine := m
          calls := [Event.get_state,
            Event.get_instruction_bytes env.state.instruction_pointer,
            Event.decode env.state.instruction_pointer, Event.find_breakpoint a] }) ∧
    (oldBP.enabled = true →
      doStep env m tid status =
        { status := env.ptrace_continue tid status
          machine := m
          calls := [Event.get_state,
            Event.get_instruction_bytes env.state.instruction_pointer,
            Event.decode env.state.instruction_pointer, Event.find_breakpoint a,
            Event.ptrace_continue tid status] }) := by
  rw [doStep_of_decodesTo env m tid status insn hDecoded, hResolved]
  constructor
  · intro hDisabled
    simp only []
    rw [placeAndResume_disabled env m tid status a mode _ oldBP hHandle hFind hDisabled]
    rfl
  · intro hEnabled
    simp only []
    rw [placeAndResume_enabled env m tid status a mode _ oldBP hHandle hFind hEnabled]
    rfl

theorem doStep_existing_breakpoint_witness :
    doStep (sampleEnv 0x10 0 CPUMode.ARM32 movInsn false true Status.ok)
        { breakpoints := [userBreakpoint 0x8004 false], singleStepBreakpoint := none } 1 0 =
      { status := Status.error (Failure.disabledBreakpointPresent 0x8004)
        machine := { breakpoints := [userBreakpoint 0x8004 false], singleStepBreakpoint := none }
        calls := [Event.get_state, Event.get_instruction_bytes 0x8000, Event.decode 0x8000,
          Event.find_breakpoint 0x8004] } ∧
    doStep (sampleEnv 0x10 0 CPUMode.ARM32 movInsn false true (Status.error (Failure.resume 3)))
        { breakpoints := [userBreakpoint 0x8004 true], singleStepBreakpoint := none } 1 0 =
      { status := Status.error (Failure.resume 3)
        machine := { breakpoints := [userBreakpoint 0x8004 true], singleStepBreakpoint := none }
        calls := [Event.get_state, Event.get_instruction_bytes 0x8000, Event.decode 0x8000,
          Event.find_breakpoint 0x8004, Event.ptrace_continue 1 0] } :=
  ⟨(doStep_existing_breakpoint (sampleEnv 0x10 0 CPUMode.ARM32 movInsn false true Status.ok)
      { breakpoints := [userBreakpoint 0x8004 false], singleStepBreakpoint := none } 1 0
      movInsn 0x8004 CPUMode.ARM32 (userBreakpoint 0x8004 false)
      (by decide) rfl rfl rfl).1 rfl,
   (doStep_existing_breakpoint
      (sampleEnv 0x10 0 CPUMode.ARM32 movInsn false true (Status.error (Failure.resume 3)))
      { breakpoints := [userBreakpoint 0x8004 true], singleStepBreakpoint := none } 1 0
      movInsn 0x8004 CPUMode.ARM32 (userBreakpoint 0x8004 true)
      (by decide) rfl rfl rfl).2 rfl⟩

/-! ## After the step -/

/-- C4 (as amended): when `doStep` returns success on a table that holds at most one
breakpoint per address, an instruction was decoded and a target `a` resolved, and
afterwards exactly one breakpoint `bp` is in the table at `a`. If the table had none
there before the call, `bp` is marked one-time and internal. If it already had one,
`bp` is that breakpoint, enabled, with its marks as they were, and table and handle
are unchanged. -/
theorem doStep_ok_breakpoint_at_target (env : Env) (m : Machine) (tid status : Int)
    (hUnique : (m.breakpoints.map Breakpoint.address).Nodup)
    (hOk : (doStep env m tid status).status = Status.ok) :
    ∃ insn a mode bp, decodesTo env insn ∧
      resolveTarget env env.state insn = .ok (a, mode) ∧
      (doStep env m tid status).machine.breakpoints.filter
        (fun b => decide (b.address = a)) = [bp] ∧
      (find_breakpoint m.breakpoints a = none → bp.one_time = true ∧ bp.internal = true) ∧
      (∀ old, find_breakpoint m.breakpoints a = some old →
        bp = old ∧ old.enabled = true ∧ (doStep env m tid status).machine = m) := by
  rcases doStep_cases env m tid status with ⟨_, e, calls, heq, _⟩ | ⟨insn, a, mode, hd, hr, heq⟩
  · rw [heq] at hOk
    cases hOk
  · rw [heq] at hOk ⊢
    cases hH : m.singleStepBreakpoint with
    | some x =>
      rw [placeAndResume_stale env m tid status a mode _ (by simp [hH])] at hOk
      cases hOk
    | none =>
      cases hF : find_breakpoint m.breakpoints a with
      | some old =>
        cases hEn : old.enabled with
        | false =>
          rw [placeAndResume_disabled env m tid status a mode _ old hH hF hEn] at hOk
          cases hOk
        | true =>
          refine ⟨insn, a, mode, old, hd, hr, ?_, ?_, ?_⟩
          · rw [placeAndResume_enabled env m tid status a mode _ old hH hF hEn]
            exact filter_address_of_find_some _ a old hUnique hF
          · intro h
            rw [hF] at h
            cases h
          · intro old' h'
            rw [hF] at h'
            cases h'
            rw [placeAndResume_enabled env m tid status a mode _ old hH hF hEn]
            exact ⟨rfl, hEn, rfl⟩
      | none =>
        cases hAdd : env.add_breakpoint_ok a with
        | false =>
          rw [placeAndResume_add_failed env m tid status a mode _ hH hF hAdd] at hOk
          cases hOk
        | true =>
          rw [placeAndResume_install env m tid status a mode _ hH hF hAdd]
          refine ⟨insn, a, mode, transientBreakpoint env a mode, hd, hr, ?_, ?_, ?_⟩
          · simp only []
            rw [List.filter_cons, if_pos (by simp [transientBreakpoint_eq]),
              filter_address_of_find_none _ a hF]
          · intro _
            rw [transientBreakpoint_eq]
            exact ⟨rfl, rfl⟩
          · intro old h'
            rw [hF] at h'
            cases h'

theorem doStep_ok_breakpoint_at_target_witness :
    ∃ insn a mode bp,
      decodesTo (sampleEnv 0x10 0 CPUMode.ARM32 movInsn false true Status.ok) insn ∧
      resolveTarget (sampleEnv 0x10 0 CPUMode.ARM32 movInsn false true Status.ok)
        (sampleEnv 0x10 0 CPUMode.ARM32 movInsn false true Status.ok).state insn
          = .ok (a, mode) ∧
      (doStep (sampleEnv 0x10 0 CPUMode.ARM32 movInsn false true Status.ok)
        idleMachine 1 0).machine.breakpoints.filter (fun b => decide (b.address = a)) = [bp] ∧
      (find_breakpoint idleMachine.breakpoints a = none →
        bp.one_time = true ∧ bp.internal = true) ∧
      (∀ old, find_breakpoint idleMachine.breakpoints a = some old →
        bp = old ∧ old.enabled = true ∧
          (doStep (sampleEnv 0x10 0 CPUMode.ARM32 movInsn false true Status.ok)
            idleMachine 1 0).machine = idleMachine) :=
  doStep_ok_breakpoint_at_target (sampleEnv 0x10 0 CPUMode.ARM32 movInsn false true Status.ok)
    idleMachine 1 0 (by decide) (by decide)

/-- C4 (as stated) fails: with an enabled user breakpoint already at the target
`0x8004`, the step returns success and the only breakpoint at the target is that user
breakpoint, which is neither one-time nor internal. -/
theorem doStep_ok_unmarked_breakpoint_counterexample :
    (doStep (sampleEnv 0x10 0 CPUMode.ARM32 movInsn false true Status.ok)
      { breakpoints := [userBreakpoint 0x8004 true], singleStepBreakpoint := none }
      1 0).status = Status.ok ∧
    (doStep (sampleEnv 0x10 0 CPUMode.ARM32 movInsn false true Status.ok)
      { breakpoints := [userBreakpoint 0x8004 true], singleStepBreakpoint := none }
      1 0).machine.breakpoints =
        [{ address := 0x8004, enabled := true, one_time := false, internal := false,
           type := TypeId.Automatic }] := by
  decide

/-! ## Failure of the resume -/

/-- C6 (as amended): when `doStep` has installed a new transient breakpoint at the
target `a` and the resume of the thread then fails with `e`, `doStep` returns that
failure as it is; nothing is undone: the installed breakpoint, marked one-time and
internal, is still the first entry of the table and the handle still points to it. -/
theorem doStep_resume_failure_keeps_breakpoint (env : Env) (m : Machine)
    (tid status : Int) (insn : Instruction) (a : Nat) (mode : CPUMode) (e : Failure)
    (hDecoded : decodesTo env insn)
    (hResolved : resolveTarget env env.state insn = .ok (a, mode))
    (hHandle : m.singleStepBreakpoint = none)
    (hFree : ∀ bp ∈ m.breakpoints, bp.address ≠ a)
    (hAdd : env.add_breakpoint_ok a = true)
    (hResume : env.ptrace_continue tid status = Status.error e) :
    doStep env m tid status =
      { status := Status.error e
        machine :=
          { breakpoints := transientBreakpoint env a mode :: m.breakpoints
            singleStepBreakpoint := some a }
        calls := [Event.get_state,
          Event.get_instruction_bytes env.state.instruction_pointer,
          Event.decode env.state.instruction_pointer, Event.find_breakpoint a,
          Event.add_breakpoint a, Event.ptrace_continue tid status] } ∧
    (transientBreakpoint env a mode).address = a ∧
    (transientBreakpoint env a mode).one_time = true ∧
    (transientBreakpoint env a mode).internal = true := by
  refine ⟨?_, ?_, ?_, ?_⟩
  · rw [doStep_of_decodesTo env m tid status insn hDecoded, hResolved]
    simp only []
    rw [placeAndResume_install env m tid status a mode _ hHandle
      ((find_breakpoint_eq_none _ _).2 hFree) hAdd, hResume]
    rfl
  · rw [transientBreakpoint_eq]
  · rw [transientBreakpoint_eq]
  · rw [transientBreakpoint_eq]

theorem doStep_resume_failure_keeps_breakpoint_witness :
    doStep (sampleEnv 0x10 0x9001 CPUMode.ARM32 bxR0 true true (Status.error (Failure.resume 3)))
        idleMachine 1 0 =
      { status := Status.error (Failure.resume 3)
        machine :=
          { breakpoints :=
              [transientBreakpoint
                (sampleEnv 0x10 0x9001 CPUMode.ARM32 bxR0 true true
                  (Status.error (Failure.resume 3))) 0x9000 CPUMode.Thumb]
            singleStepBreakpoint := some 0x9000 }
        calls := [Event.get_state, Event.get_instruction_bytes 0x8000, Event.decode 0x8000,
          Event.find_breakpoint 0x9000, Event.add_breakpoint 0x9000,
          Event.ptrace_continue 1 0] } :=
  (doStep_resume_failure_keeps_breakpoint
    (sampleEnv 0x10 0x9001 CPUMode.ARM32 bxR0 true true (Status.error (Failure.resume 3)))
    idleMachine 1 0 bxR0 0x9000 CPUMode.Thumb (Failure.resume 3)
    (by decide) rfl rfl (by intro bp hbp; cases hbp) rfl rfl).1

/-- C6 (as stated) fails: `mov r1, r2` at `0x8000`, empty table, `add_breakpoint`
succeeds and the resume fails. The failure is returned while the breakpoint installed
at `0x8004` is still in the table and the handle is still set. -/
theorem doStep_resume_failure_counterexample :
    doStep (sampleEnv 0x10 0 CPUMode.ARM32 movInsn false true (Status.error (Failure.resume 3)))
        idleMachine 1 0 =
      { status := Status.error (Failure.resume 3)
        machine :=
          { breakpoints :=
              [{ address := 0x8004, enabled := true, one_time := true, internal := true,
                 type := TypeId.Automatic }]
            singleStepBreakpoint := some 0x8004 }
        calls := [Event.get_state, Event.get_instruction_bytes 0x8000, Event.decode 0x8000,
          Event.find_breakpoint 0x8004, Event.add_breakpoint 0x8004,
          Event.ptrace_continue 1 0] } := by
  decide

/-! ## Transient breakpoint already outstanding -/

/-- C7 (as amended): a `doStep` call made while the handle of the transient breakpoint
is set always fails, leaves the breakpoint table and the handle as they were and
issues no resume. The failure is the internal-consistency error whenever the state
read, the mode checks, the fetch, the decoding and the target resolution succeed
(otherwise it is the failure of the stage that fails first). -/
theorem doStep_with_outstanding_breakpoint (env : Env) (m : Machine) (tid status : Int)
    (handle : Nat) (hSet : m.singleStepBreakpoint = some handle) :
    (doStep env m tid status).status ≠ Status.ok ∧
    (doStep env m tid status).machine = m ∧
    (∀ t s, Event.ptrace_continue t s ∉ (doStep env m tid status).calls) ∧
    (∀ insn a mode, decodesTo env insn →
      resolveTarget env env.state insn = .ok (a, mode) →
      (doStep env m tid status).status =
        Status.error Failure.singleStepBreakpointStillPresent) := by
  rcases doStep_cases env m tid status with
    ⟨hno, e, calls, heq, hcalls⟩ | ⟨insn, a, mode, hd, hr, heq⟩
  · rw [heq]
    refine ⟨by simp, rfl, hcalls, ?_⟩
    intro insn a mode hd hr
    exact absurd ⟨insn, a, mode, hd, hr⟩ hno
  · rw [heq, placeAndResume_stale env m tid status a mode _ (by simp [hSet])]
    refine ⟨by simp, rfl, by simp [decodeCalls], ?_⟩
    intro _ _ _ _ _
    rfl

theorem doStep_with_outstanding_breakpoint_witness :
    (doStep (sampleEnv 0x10 0 CPUMode.ARM32 movInsn false true Status.ok)
      { breakpoints := [], singleStepBreakpoint := some 0x8004 } 1 0).status =
        Status.error Failure.singleStepBreakpointStillPresent :=
  (doStep_with_outstanding_breakpoint
    (sampleEnv 0x10 0 CPUMode.ARM32 movInsn false true Status.ok)
    { breakpoints := [], singleStepBreakpoint := some 0x8004 } 1 0 0x8004 rfl).2.2.2
    movInsn 0x8004 CPUMode.ARM32 (by decide) rfl

/-- C7 (as stated) fails: with the handle set and bit 24 of the flags set, the call
fails with the Jazelle-state error, not with the internal-consistency error. -/
theorem doStep_outstanding_breakpoint_counterexample :
    (doStep (sampleEnv 0x01000010 0 CPUMode.ARM32 movInsn false true Status.ok)
      { breakpoints := [], singleStepBreakpoint := some 0x8004 } 1 0).status =
        Status.error Failure.jazelleState ∧
    Status.error Failure.jazelleState ≠
      Status.error Failure.singleStepBreakpointStillPresent := by
  decide

/-! ## The conditional-block check -/

theorem placeAndResume_calls (env : Env) (m : Machine) (tid status : Int)
    (addrAfterInsn : Nat) (targetMode : CPUMode) (calls : List Event) :
    ∃ rest, (placeAndResume env m tid status addrAfterInsn targetMode calls).calls =
      calls ++ rest := by
  unfold placeAndResume
  split
  · exact ⟨[], by simp⟩
  · split
    · split
      · exact ⟨_, rfl⟩
      · exact ⟨[Event.find_breakpoint addrAfterInsn, Event.ptrace_continue tid status],
          by simp⟩
    · split
      · exact ⟨[Event.find_breakpoint addrAfterInsn, Event.add_breakpoint addrAfterInsn,
          Event.ptrace_continue tid status], by simp⟩
      · exact ⟨[Event.find_breakpoint addrAfterInsn, Event.add_breakpoint addrAfterInsn],
          by simp⟩

theorem doStep_calls_of_mode_accepted (env : Env) (m : Machine) (tid status : Int)
    (hState : env.state.empty = false)
    (hJ : env.state.flags &&& CPSR_Jbit = 0)
    (hIT : ¬ (env.state.flags &&& CPSR_Tbit ≠ 0 ∧
      env.state.flags &&& (CPSR_ITmask10 ||| CPSR_ITmask72) ≠ 0)) :
    (env.get_instruction_bytes env.state.instruction_pointer = [] →
      (doStep env m tid status).calls =
        [Event.get_state, Event.get_instruction_bytes env.state.instruction_pointer]) ∧
    (env.get_instruction_bytes env.state.instruction_pointer ≠ [] →
      ∃ rest, (doStep env m tid status).calls =
        decodeCalls env.state.instruction_pointer ++ rest) := by
  constructor
  · intro hnil
    unfold doStep
    simp only [hState, hJ]
    simp [hIT, hnil]
  · intro hne
    have hlen : (env.get_instruction_bytes env.state.instruction_pointer).length ≠ 0 := by
      intro h0
      exact hne (List.length_eq_zero.1 h0)
    cases hD : env.decode (env.get_instruction_bytes env.state.instruction_pointer)
        env.state.instruction_pointer with
    | none =>
      refine ⟨[], ?_⟩
      unfold doStep
      simp only [hState, hJ, hD, decodeCalls]
      simp [hIT, hne]
    | some insn =>
      rw [doStep_of_decodesTo env m tid status insn ⟨hState, hJ, hIT, hlen, hD⟩]
      cases hR : resolveTarget env env.state insn with
      | error e => exact ⟨[], by simp⟩
      | ok p =>
        obtain ⟨a, mode⟩ := p
        exact placeAndResume_calls env m tid status a mode _

theorem IT_refusal_iff (flags : Nat) :
    (flags &&& CPSR_Tbit ≠ 0 ∧ flags &&& (CPSR_ITmask10 ||| CPSR_ITmask72) ≠ 0) ↔
      (flags.testBit 5 = true ∧
        ∃ i, ((10 ≤ i ∧ i ≤ 15) ∨ (25 ≤ i ∧ i ≤ 26)) ∧ flags.testBit i = true) := by
  rw [Ne, Ne, and_Tbit_eq_zero_iff, and_ITmask_eq_zero_iff]
  constructor
  · rintro ⟨hT, hI⟩
    constructor
    · cases hb : flags.testBit 5
      · exact absurd hb hT
      · rfl
    · by_contra hno
      apply hI
      intro i hi
      cases hb : flags.testBit i
      · rfl
      · exact absurd ⟨i, hi, hb⟩ hno
  · rintro ⟨hT, i, hi, hb⟩
    constructor
    · rw [hT]
      simp
    · intro hall
      rw [hall i hi] at hb
      cases hb

/-- C11: with the state read and flags bit 24 clear, `doStep` refuses with the
inside-IT-block error (right after the state read, machine untouched) exactly when
bit 5 is set and at least one of bits 10..15 or 25..26 is set. In every other case
(bit 5 clear whatever the IT bits, or bit 5 set with all of those bits zero) the step
goes on: it fetches the bytes at the program counter and, when bytes come back, decodes
them. -/
theorem doStep_IT_block_refusal (env : Env) (m : Machine) (tid status : Int)
    (hState : env.state.empty = false) (hJ : env.state.flags.testBit 24 = false) :
    (doStep env m tid status =
        { status := Status.error Failure.thumb2ITBlock, machine := m,
          calls := [Event.get_state] } ↔
      (env.state.flags.testBit 5 = true ∧
        ∃ i, ((10 ≤ i ∧ i ≤ 15) ∨ (25 ≤ i ∧ i ≤ 26)) ∧ env.state.flags.testBit i = true)) ∧
    (¬ (env.state.flags.testBit 5 = true ∧
        ∃ i, ((10 ≤ i ∧ i ≤ 15) ∨ (25 ≤ i ∧ i ≤ 26)) ∧ env.state.flags.testBit i = true) →
      Event.get_instruction_bytes env.state.instruction_pointer ∈
        (doStep env m tid status).calls ∧
      (env.get_instruction_bytes env.state.instruction_pointer ≠ [] →
        Event.decode env.state.instruction_pointer ∈ (doStep env m tid status).calls)) := by
  have hJ0 : env.state.flags &&& CPSR_Jbit = 0 := (and_Jbit_eq_zero_iff _).2 hJ
  have hgo : ¬ (env.state.flags.testBit 5 = true ∧
        ∃ i, ((10 ≤ i ∧ i ≤ 15) ∨ (25 ≤ i ∧ i ≤ 26)) ∧ env.state.flags.testBit i = true) →
      Event.get_instruction_bytes env.state.instruction_pointer ∈
        (doStep env m tid status).calls ∧
      (env.get_instruction_bytes env.state.instruction_pointer ≠ [] →
        Event.decode env.state.instruction_pointer ∈ (doStep env m tid status).calls) := by
    intro hno
    have hIT := fun h => hno ((IT_refusal_iff _).1 h)
    obtain ⟨h1, h2⟩ := doStep_calls_of_mode_accepted env m tid status hState hJ0 hIT
    constructor
    · by_cases hnil : env.get_instruction_bytes env.state.instruction_pointer = []
      · rw [h1 hnil]
        simp
      · obtain ⟨rest, hrest⟩ := h2 hnil
        rw [hrest]
        simp [decodeCalls]
    · intro hne
      obtain ⟨rest, hrest⟩ := h2 hne
      rw [hrest]
      simp [decodeCalls]
  refine ⟨⟨?_, ?_⟩, hgo⟩
  · intro heq
    by_contra hno
    have hmem := (hgo hno).1
    rw [heq] at hmem
    simp at hmem
  · intro hcond
    have hIT := (IT_refusal_iff _).2 hcond
    unfold doStep
    simp only [hState, hJ0]
    simp [hIT]

theorem doStep_IT_block_refusal_witness :
    doStep (sampleEnv 0x0430 0 CPUMode.Thumb movInsn false true Status.ok) idleMachine 1 0 =
      { status := Status.error Failure.thumb2ITBlock, machine := idleMachine,
        calls := [Event.get_state] } :=
  (doStep_IT_block_refusal (sampleEnv 0x0430 0 CPUMode.Thumb movInsn false true Status.ok)
    idleMachine 1 0 rfl (by decide)).1.2 ⟨by decide, 10, Or.inl ⟨le_refl 10, by decide⟩, by decide⟩

/-! ## Branches that are not taken -/

/-- C16: an instruction of length `L` at program counter `A` that modifies the PC but
is not executed in the current condition resolves to `(A + L, current mode)` with no
failure, whatever its opcode and operands (BXJ, no operand, unknown opcode included). -/
theorem resolveTarget_not_executed (env : Env) (state : State) (insn : Instruction)
    (A L : Nat)
    (hA : state.instruction_pointer = A) (hL : insn.byte_size = L)
    (_hModifies : env.modifies_pc insn = true)
    (hSkipped : env.is_executed insn state = false)
    (hRange : A + L < 2 ^ 64) :
    resolveTarget env state insn = .ok (A + L, env.cpu_mode) := by
  subst hA hL
  rw [resolveTarget_of_not_taken env state insn (by simp [hSkipped]),
    wrapAddress_of_lt _ hRange]

theorem resolveTarget_not_executed_witness :
    resolveTarget (skippedEnv bxjR0) (skippedEnv bxjR0).state bxjR0 =
      .ok (0x8004, CPUMode.ARM32) :=
  resolveTarget_not_executed (skippedEnv bxjR0) (skippedEnv bxjR0).state bxjR0 0x8000 4
    rfl rfl rfl rfl (by decide)

/-! ## Branches the resolver refuses -/

/-- C12: for a decoded instruction that modifies the PC and is executed, either the
opcode is B, BL, BX or BLX with exactly one operand that is an immediate or a register
mapped to an index 0..15, or the resolver fails explicitly and `doStep` returns that
failure with table and handle untouched and no call after the decoding (nothing added,
no resume): BXJ, no operand, more than one operand for a branch, any other opcode, an
unmapped register identifier, an operand that is neither immediate nor register. -/
theorem doStep_unsupported_branch_fails (env : Env) (m : Machine) (tid status : Int)
    (insn : Instruction)
    (hDecoded : decodesTo env insn)
    (hTaken : env.modifies_pc insn = true)
    (hExec : env.is_executed insn env.state = true) :
    ((insn.operation = ArmIns.B ∨ insn.operation = ArmIns.BL ∨
        insn.operation = ArmIns.BX ∨ insn.operation = ArmIns.BLX) ∧
      ∃ operand, insn.operands = [operand] ∧
        ((∃ imm, operand = Operand.imm imm) ∨
          ∃ r regIndex, operand = Operand.reg r ∧ regIndexOf r = some regIndex ∧
            regIndex ≤ 15)) ∨
    ∃ e, resolveTarget env env.state insn = .error e ∧
      doStep env m tid status =
        { status := Status.error e, machine := m,
          calls := [Event.get_state,
            Event.get_instruction_bytes env.state.instruction_pointer,
            Event.decode env.state.instruction_pointer] } ∧
      ((insn.operation = ArmIns.BXJ ∧ e = Failure.intoJazelleState) ∨
        (insn.operands = [] ∧ e = Failure.notSupportedYet insn.mnemonic) ∨
        (2 ≤ insn.operands.length ∧
          e = Failure.unexpectedForm insn.mnemonic insn.operands.length) ∨
        (e = Failure.notKnownBranch insn.mnemonic) ∨
        (∃ r, insn.operands = [Operand.reg r] ∧ regIndexOf r = none ∧
          e = Failure.badOperandRegister insn.mnemonic r) ∨
        (insn.operands = [Operand.other] ∧ e = Failure.indirectBranch)) := by
  have key : ∀ e, resolveTarget env env.state insn = .error e →
      doStep env m tid status =
        { status := Status.error e, machine := m,
          calls := [Event.get_state,
            Event.get_instruction_bytes env.state.instruction_pointer,
            Event.decode env.state.instruction_pointer] } := by
    intro e he
    rw [doStep_of_decodesTo env m tid status insn hDecoded, he]
    rfl
  by_cases hJ : insn.operation = ArmIns.BXJ
  · have he : resolveTarget env env.state insn = .error Failure.intoJazelleState := by
      simp [resolveTarget, hTaken, hExec, hJ]
    exact Or.inr ⟨_, he, key _ he, Or.inl ⟨hJ, rfl⟩⟩
  cases hOps : insn.operands with
  | nil =>
    have he : resolveTarget env env.state insn =
        .error (Failure.notSupportedYet insn.mnemonic) := by
      simp [resolveTarget, hTaken, hExec, hJ, Instruction.operand_count, hOps]
    exact Or.inr ⟨_, he, key _ he, Or.inr (Or.inl ⟨rfl, rfl⟩)⟩
  | cons x t =>
    by_cases hF : insn.operation = ArmIns.B ∨ insn.operation = ArmIns.BL ∨
        insn.operation = ArmIns.BX ∨ insn.operation = ArmIns.BLX
    · cases t with
      | cons y t' =>
        have he : resolveTarget env env.state insn =
            .error (Failure.unexpectedForm insn.mnemonic (x :: y :: t').length) := by
          rcases hF with h | h | h | h <;>
            simp [resolveTarget, hTaken, hExec, h, Instruction.operand_count, hOps]
        exact Or.inr ⟨_, he, key _ he, Or.inr (Or.inr (Or.inl ⟨by simp, rfl⟩))⟩
      | nil =>
        cases x with
        | imm v => exact Or.inl ⟨hF, _, rfl, Or.inl ⟨v, rfl⟩⟩
        | reg r =>
          cases hI : regIndexOf r with
          | some regIndex =>
            exact Or.inl ⟨hF, _, rfl, Or.inr ⟨r, regIndex, rfl, hI, regIndexOf_le r regIndex hI⟩⟩
          | none =>
            have he : resolveTarget env env.state insn =
                .error (Failure.badOperandRegister insn.mnemonic r) := by
              rcases hF with h | h | h | h <;>
                simp [resolveTarget, hTaken, hExec, h, Instruction.operand_count, hOps, hI]
            exact Or.inr ⟨_, he, key _ he,
              Or.inr (Or.inr (Or.inr (Or.inr (Or.inl ⟨r, rfl, hI, rfl⟩))))⟩
        | other =>
          have he : resolveTarget env env.state insn = .error Failure.indirectBranch := by
            rcases hF with h | h | h | h <;>
              simp [resolveTarget, hTaken, hExec, h, Instruction.operand_count, hOps]
          exact Or.inr ⟨_, he, key _ he,
            Or.inr (Or.inr (Or.inr (Or.inr (Or.inr ⟨rfl, rfl⟩))))⟩
    · have he : resolveTarget env env.state insn =
          .error (Failure.notKnownBranch insn.mnemonic) := by
        cases hop : insn.operation <;> simp [hop] at hF hJ
        simp [resolveTarget, hTaken, hExec, hop, Instruction.operand_count, hOps]
      exact Or.inr ⟨_, he, key _ he, Or.inr (Or.inr (Or.inr (Or.inl rfl)))⟩

theorem doStep_unsupported_branch_fails_witness :
    ∃ e, resolveTarget (sampleEnv 0x10 0 CPUMode.ARM32 popPc true true Status.ok)
        (sampleEnv 0x10 0 CPUMode.ARM32 popPc true true Status.ok).state popPc = .error e ∧
      doStep (sampleEnv 0x10 0 CPUMode.ARM32 popPc true true Status.ok) idleMachine 1 0 =
        { status := Status.error e, machine := idleMachine,
          calls := [Event.get_state, Event.get_instruction_bytes 0x8000,
            Event.decode 0x8000] } ∧
      ((popPc.operation = ArmIns.BXJ ∧ e = Failure.intoJazelleState) ∨
        (popPc.operands = [] ∧ e = Failure.notSupportedYet popPc.mnemonic) ∨
        (2 ≤ popPc.operands.length ∧
          e = Failure.unexpectedForm popPc.mnemonic popPc.operands.length) ∨
        (e = Failure.notKnownBranch popPc.mnemonic) ∨
        (∃ r, popPc.operands = [Operand.reg r] ∧ regIndexOf r = none ∧
          e = Failure.badOperandRegister popPc.mnemonic r) ∨
        (popPc.operands = [Operand.other] ∧ e = Failure.indirectBranch)) :=
  (doStep_unsupported_branch_fails (sampleEnv 0x10 0 CPUMode.ARM32 popPc true true Status.ok)
    idleMachine 1 0 popPc (by decide) rfl rfl).resolve_left (by simp [popPc])

/-! ## Encoding type of the installed breakpoint -/

/-- C14: a `doStep` call that installs a new breakpoint (instruction decoded, target
`a` in mode `mode` resolved, no transient breakpoint outstanding, no breakpoint at
`a`, `add_breakpoint` succeeding) puts one new entry at `a` in front of the table,
marked one-time and internal. Its encoding type is ARM32 for an ARM32 target and the
2-byte Thumb type for a Thumb target when the target mode differs from the current
mode, and the type of a fresh breakpoint when the two modes are equal. -/
theorem doStep_installed_breakpoint_type (env : Env) (m : Machine) (tid status : Int)
    (insn : Instruction) (a : Nat) (mode : CPUMode)
    (hDecoded : decodesTo env insn)
    (hResolved : resolveTarget env env.state insn = .ok (a, mode))
    (hHandle : m.singleStepBreakpoint = none)
    (hFree : ∀ bp ∈ m.breakpoints, bp.address ≠ a)
    (hAdd : env.add_breakpoint_ok a = true) :
    ∃ bp, (doStep env m tid status).machine.breakpoints = bp :: m.breakpoints ∧
      bp.address = a ∧ bp.one_time = true ∧ bp.internal = true ∧
      (mode ≠ env.cpu_mode → mode = CPUMode.ARM32 → bp.type = TypeId.ARM32) ∧
      (mode ≠ env.cpu_mode → mode = CPUMode.Thumb → bp.type = TypeId.Thumb2Byte) ∧
      (mode = env.cpu_mode → bp.type = (Breakpoint.create a).type) := by
  refine ⟨transientBreakpoint env a mode, ?_, ?_⟩
  · rw [doStep_of_decodesTo env m tid status insn hDecoded, hResolved]
    simp only []
    rw [placeAndResume_install env m tid status a mode _ hHandle
      ((find_breakpoint_eq_none _ _).2 hFree) hAdd]
  · rw [transientBreakpoint_eq]
    refine ⟨rfl, rfl, rfl, ?_, ?_, ?_⟩
    · intro hne hm
      subst hm
      simp [hne]
    · intro hne hm
      subst hm
      simp [hne]
    · intro heq
      simp [heq, Breakpoint.create]

theorem doStep_installed_breakpoint_type_witness :
    ∃ bp, (doStep (sampleEnv 0x10 0x9001 CPUMode.ARM32 bxR0 true true Status.ok)
        idleMachine 1 0).machine.breakpoints = bp :: idleMachine.breakpoints ∧
      bp.address = 0x9000 ∧ bp.one_time = true ∧ bp.internal = true ∧
      (CPUMode.Thumb ≠ (sampleEnv 0x10 0x9001 CPUMode.ARM32 bxR0 true true Status.ok).cpu_mode →
        CPUMode.Thumb = CPUMode.ARM32 → bp.type = TypeId.ARM32) ∧
      (CPUMode.Thumb ≠ (sampleEnv 0x10 0x9001 CPUMode.ARM32 bxR0 true true Status.ok).cpu_mode →
        CPUMode.Thumb = CPUMode.Thumb → bp.type = TypeId.Thumb2Byte) ∧
      (CPUMode.Thumb = (sampleEnv 0x10 0x9001 CPUMode.ARM32 bxR0 true true Status.ok).cpu_mode →
        bp.type = (Breakpoint.create 0x9000).type) :=
  doStep_installed_breakpoint_type (sampleEnv 0x10 0x9001 CPUMode.ARM32 bxR0 true true Status.ok)
    idleMachine 1 0 bxR0 0x9000 CPUMode.Thumb (by decide) rfl rfl
    (by intro bp hbp; cases hbp) rfl

/-! ## ARM32 targets are not checked for alignment -/

/-- C17: an executed branch (B, BL, BX, BLX) with a single register operand whose
resolved value `w` (the register value, plus 4 when the register is the PC) has low
bit 0 resolves to `(w, ARM32)` without any alignment failure, also when bit 1 of `w`
is set; and when the step then installs a breakpoint (no transient breakpoint
outstanding, none at `w`, `add_breakpoint` succeeding), that breakpoint is at `w`. -/
theorem resolveTarget_register_arm32_unchecked (env : Env) (m : Machine)
    (tid status : Int) (insn : Instruction) (r : ArmReg) (regIndex v w : Nat)
    (hTaken : env.modifies_pc insn = true) (hExec : env.is_executed insn env.state = true)
    (hOp : insn.operation = ArmIns.B ∨ insn.operation = ArmIns.BL ∨
      insn.operation = ArmIns.BX ∨ insn.operation = ArmIns.BLX)
    (hOperands : insn.operands = [Operand.reg r])
    (hIndex : regIndexOf r = some regIndex)
    (hReg : env.state.gp_register regIndex = some v)
    (hw : w = if regIndex = 15 then v + 4 else v) (hRange : w < 2 ^ 64)
    (hLow : w % 2 = 0) :
    resolveTarget env env.state insn = .ok (w, CPUMode.ARM32) ∧
    (decodesTo env insn → m.singleStepBreakpoint = none →
      (∀ bp ∈ m.breakpoints, bp.address ≠ w) → env.add_breakpoint_ok w = true →
      (doStep env m tid status).machine =
        { breakpoints := transientBreakpoint env w CPUMode.ARM32 :: m.breakpoints
          singleStepBreakpoint := some w } ∧
      (transientBreakpoint env w CPUMode.ARM32).address = w) := by
  have hv : v < 2 ^ 64 := by
    by_cases h15 : regIndex = 15
    · simp only [h15, if_true] at hw
      omega
    · simp only [h15, if_false] at hw
      omega
  have hres : resolveTarget env env.state insn = .ok (w, CPUMode.ARM32) := by
    rw [resolveTarget_register env env.state insn r regIndex v hTaken hExec hOp hOperands
      hIndex hReg, registerTarget_eq regIndex v w hw hv hRange,
      if_neg (fun h => by omega), if_neg (by omega), hLow]
    rfl
  refine ⟨hres, ?_⟩
  intro hDecoded hHandle hFree hAdd
  constructor
  · rw [doStep_of_decodesTo env m tid status insn hDecoded, hres]
    simp only []
    rw [placeAndResume_install env m tid status w CPUMode.ARM32 _ hHandle
      ((find_breakpoint_eq_none _ _).2 hFree) hAdd]
  · rw [transientBreakpoint_eq]

theorem resolveTarget_register_arm32_unchecked_witness :
    (doStep (sampleEnv 0x10 0x9002 CPUMode.ARM32 bxR0 true true Status.ok)
      idleMachine 1 0).machine =
        { breakpoints :=
            [transientBreakpoint (sampleEnv 0x10 0x9002 CPUMode.ARM32 bxR0 true true Status.ok)
              0x9002 CPUMode.ARM32]
          singleStepBreakpoint := some 0x9002 } ∧
    (transientBreakpoint (sampleEnv 0x10 0x9002 CPUMode.ARM32 bxR0 true true Status.ok)
      0x9002 CPUMode.ARM32).address = 0x9002 :=
  (resolveTarget_register_arm32_unchecked
    (sampleEnv 0x10 0x9002 CPUMode.ARM32 bxR0 true true Status.ok) idleMachine 1 0 bxR0
    ArmReg.R0 0 0x9002 0x9002 rfl rfl (Or.inr (Or.inr (Or.inl rfl))) rfl rfl rfl
    (by decide) (by decide) (by decide)).2 (by decide) rfl (by intro bp hbp; cases hbp) rfl

/-! ## Reuse of an enabled breakpoint -/

/-- C18: a `doStep` call that finds an enabled breakpoint `oldBP` at the resolved
target `a` (whatever the target mode) leaves the machine as it was: the table is
unchanged, so the lookup at `a` still yields `oldBP` with its one-time flag, internal
flag and encoding type as before, and the handle of the transient breakpoint is still
unset. -/
theorem doStep_reuses_enabled_breakpoint (env : Env) (m : Machine) (tid status : Int)
    (insn : Instruction) (a : Nat) (mode : CPUMode) (oldBP : Breakpoint)
    (hDecoded : decodesTo env insn)
    (hResolved : resolveTarget env env.state insn = .ok (a, mode))
    (hHandle : m.singleStepBreakpoint = none)
    (hFind : find_breakpoint m.breakpoints a = some oldBP)
    (hEnabled : oldBP.enabled = true) :
    (doStep env m tid status).machine.breakpoints = m.breakpoints ∧
    find_breakpoint (doStep env m tid status).machine.breakpoints a = some oldBP ∧
    (doStep env m tid status).machine.singleStepBreakpoint = none := by
  rw [doStep_of_decodesTo env m tid status insn hDecoded, hResolved]
  simp only []
  rw [placeAndResume_enabled env m tid status a mode _ oldBP hHandle hFind hEnabled]
  exact ⟨rfl, hFind, hHandle⟩

theorem doStep_reuses_enabled_breakpoint_witness :
    (doStep (sampleEnv 0x10 0x9001 CPUMode.ARM32 bxR0 true true Status.ok)
      { breakpoints := [userBreakpoint 0x9000 true], singleStepBreakpoint := none }
      1 0).machine.breakpoints = [userBreakpoint 0x9000 true] ∧
    find_breakpoint (doStep (sampleEnv 0x10 0x9001 CPUMode.ARM32 bxR0 true true Status.ok)
      { breakpoints := [userBreakpoint 0x9000 true], singleStepBreakpoint := none }
      1 0).machine.breakpoints 0x9000 = some (userBreakpoint 0x9000 true) ∧
    (doStep (sampleEnv 0x10 0x9001 CPUMode.ARM32 bxR0 true true Status.ok)
      { breakpoints := [userBreakpoint 0x9000 true], singleStepBreakpoint := none }
      1 0).machine.singleStepBreakpoint = none :=
  doStep_reuses_enabled_breakpoint
    (sampleEnv 0x10 0x9001 CPUMode.ARM32 bxR0 true true Status.ok)
    { breakpoints := [userBreakpoint 0x9000 true], singleStepBreakpoint := none } 1 0
    bxR0 0x9000 CPUMode.Thumb (userBreakpoint 0x9000 true) (by decide) rfl rfl rfl rfl

/-! ## Failures before the breakpoint is placed -/

theorem doStep_stale_handle (env : Env) (m : Machine) (tid status : Int)
    (hSet : m.singleStepBreakpoint.isSome = true) :
    (∃ e, (doStep env m tid status).status = Status.error e) ∧
    (doStep env m tid status).machine = m ∧
    (∀ t s, Event.ptrace_continue t s ∉ (doStep env m tid status).calls) ∧
    ((∃ insn a mode, decodesTo env insn ∧
        resolveTarget env env.state insn = .ok (a, mode)) →
      (doStep env m tid status).status =
        Status.error Failure.singleStepBreakpointStillPresent) := by
  rcases doStep_cases env m tid status with
    ⟨hno, e, calls, heq, hcalls⟩ | ⟨insn, a, mode, hd, hr, heq⟩
  · rw [heq]
    exact ⟨⟨e, rfl⟩, rfl, hcalls, fun h => absurd h hno⟩
  · rw [heq, placeAndResume_stale env m tid status a mode _ hSet]
    exact ⟨⟨_, rfl⟩, rfl, by simp [decodeCalls], fun _ => rfl⟩

/-- C13: a `doStep` call that fails before a breakpoint has been placed (state read
failure, flags bit 24 set, inside an IT block, no bytes fetched, bytes not decodable,
a resolver failure, or, once the target `a` is resolved, a transient breakpoint still
outstanding, a disabled breakpoint at `a`, or `add_breakpoint` failing) returns an
error, leaves the breakpoint table and the handle as they were, and issues no
resume. -/
theorem doStep_failure_before_placement (env : Env) (m : Machine) (tid status : Int)
    (hCause :
      env.state.empty = true ∨
      env.state.flags.testBit 24 = true ∨
      (env.state.flags.testBit 5 = true ∧
        ∃ i, ((10 ≤ i ∧ i ≤ 15) ∨ (25 ≤ i ∧ i ≤ 26)) ∧ env.state.flags.testBit i = true) ∨
      env.get_instruction_bytes env.state.instruction_pointer = [] ∨
      env.decode (env.get_instruction_bytes env.state.instruction_pointer)
        env.state.instruction_pointer = none ∨
      (∃ insn e, decodesTo env insn ∧ resolveTarget env env.state insn = .error e) ∨
      (∃ insn a mode, decodesTo env insn ∧
        resolveTarget env env.state insn = .ok (a, mode) ∧
        (m.singleStepBreakpoint ≠ none ∨
          (∃ oldBP, find_breakpoint m.breakpoints a = some oldBP ∧ oldBP.enabled = false) ∨
          (find_breakpoint m.breakpoints a = none ∧ env.add_breakpoint_ok a = false)))) :
    (∃ e, (doStep env m tid status).status = Status.error e) ∧
    (doStep env m tid status).machine = m ∧
    (∀ t s, Event.ptrace_continue t s ∉ (doStep env m tid status).calls) := by
  rcases doStep_cases env m tid status with
    ⟨hno, e, calls, heq, hcalls⟩ | ⟨insn, a, mode, hd, hr, heq⟩
  · rw [heq]
    exact ⟨⟨e, rfl⟩, rfl, hcalls⟩
  · by_cases hSet : m.singleStepBreakpoint.isSome = true
    · obtain ⟨h1, h2, h3, _⟩ := doStep_stale_handle env m tid status hSet
      exact ⟨h1, h2, h3⟩
    · have hHandle : m.singleStepBreakpoint = none := by
        cases hh : m.singleStepBreakpoint with
        | none => rfl
        | some x => simp [hh] at hSet
      rcases hCause with h | h | h | h | h | ⟨insn', e, hd', hr'⟩ | ⟨insn', a', mode', hd', hr', h⟩
      · rw [hd.1] at h
        cases h
      · rw [(and_Jbit_eq_zero_iff _).1 hd.2.1] at h
        cases h
      · exact absurd ((IT_refusal_iff _).2 h) hd.2.2.1
      · have := hd.2.2.2.1
        rw [h] at this
        exact absurd rfl this
      · have := hd.2.2.2.2
        rw [h] at this
        cases this
      · have := decodesTo_unique env insn insn' hd hd'
        subst this
        rw [hr] at hr'
        cases hr'
      · have := decodesTo_unique env insn insn' hd hd'
        subst this
        rw [hr] at hr'
        cases hr'
        rw [heq]
        rcases h with h | ⟨oldBP, hFind, hDis⟩ | ⟨hFree, hAdd⟩
        · exact absurd hHandle h
        · rw [placeAndResume_disabled env m tid status a mode _ oldBP hHandle hFind hDis]
          exact ⟨⟨_, rfl⟩, rfl, by simp [decodeCalls]⟩
        · rw [placeAndResume_add_failed env m tid status a mode _ hHandle hFree hAdd]
          exact ⟨⟨_, rfl⟩, rfl, by simp [decodeCalls]⟩

theorem doStep_failure_before_placement_witness :
    (∃ e, (doStep (sampleEnv 0x10 0 CPUMode.ARM32 movInsn false false Status.ok)
      idleMachine 1 0).status = Status.error e) ∧
    (doStep (sampleEnv 0x10 0 CPUMode.ARM32 movInsn false false Status.ok)
      idleMachine 1 0).machine = idleMachine ∧
    (∀ t s, Event.ptrace_continue t s ∉
      (doStep (sampleEnv 0x10 0 CPUMode.ARM32 movInsn false false Status.ok)
        idleMachine 1 0).calls) :=
  doStep_failure_before_placement
    (sampleEnv 0x10 0 CPUMode.ARM32 movInsn false false Status.ok) idleMachine 1 0
    (Or.inr (Or.inr (Or.inr (Or.inr (Or.inr (Or.inr
      ⟨movInsn, 0x8004, CPUMode.ARM32, by decide, rfl, Or.inr (Or.inr ⟨rfl, rfl⟩)⟩))))))

/-! ## The handle of the transient breakpoint -/

/-- C19: `doStep` never clears or replaces a set handle: a handle that was set is the
same afterwards, so the handle changes only when it was unset. Whenever `doStep`
installs a new breakpoint (target `a` resolved, handle unset, no breakpoint at `a`,
`add_breakpoint` succeeding) the handle is `a` on return, whatever the resume returns.
A following `doStep` call on a machine that still has that handle, in any environment,
then fails, leaves its machine untouched and issues no resume; when its state read,
mode checks, fetch, decoding and resolution succeed the failure is the
single-step-breakpoint-still-present error. -/
theorem doStep_handle_never_cleared (env env2 : Env) (m m2 : Machine)
    (tid status tid2 status2 : Int) :
    (∀ handle, m.singleStepBreakpoint = some handle →
      (doStep env m tid status).machine.singleStepBreakpoint = some handle) ∧
    ((doStep env m tid status).machine.singleStepBreakpoint ≠ m.singleStepBreakpoint →
      m.singleStepBreakpoint = none) ∧
    (∀ insn a mode, decodesTo env insn →
      resolveTarget env env.state insn = .ok (a, mode) →
      m.singleStepBreakpoint = none →
      (∀ bp ∈ m.breakpoints, bp.address ≠ a) →
      env.add_breakpoint_ok a = true →
      (doStep env m tid status).machine.singleStepBreakpoint = some a ∧
      (m2.singleStepBreakpoint = (doStep env m tid status).machine.singleStepBreakpoint →
        (∃ e, (doStep env2 m2 tid2 status2).status = Status.error e) ∧
        (doStep env2 m2 tid2 status2).machine = m2 ∧
        (∀ t s, Event.ptrace_continue t s ∉ (doStep env2 m2 tid2 status2).calls) ∧
        ((∃ insn2 a2 mode2, decodesTo env2 insn2 ∧
            resolveTarget env2 env2.state insn2 = .ok (a2, mode2)) →
          (doStep env2 m2 tid2 status2).status =
            Status.error Failure.singleStepBreakpointStillPresent))) := by
  have hkeep : ∀ handle, m.singleStepBreakpoint = some handle →
      (doStep env m tid status).machine.singleStepBreakpoint = some handle := by
    intro handle hSet
    rw [(doStep_stale_handle env m tid status (by simp [hSet])).2.1]
    exact hSet
  refine ⟨hkeep, ?_, ?_⟩
  · intro hchanged
    cases hh : m.singleStepBreakpoint with
    | none => rfl
    | some handle =>
      rw [hkeep handle hh, hh] at hchanged
      exact absurd rfl hchanged
  · intro insn a mode hDecoded hResolved hHandle hFree hAdd
    have hafter : (doStep env m tid status).machine.singleStepBreakpoint = some a := by
      rw [doStep_of_decodesTo env m tid status insn hDecoded, hResolved]
      simp only []
      rw [placeAndResume_install env m tid status a mode _ hHandle
        ((find_breakpoint_eq_none _ _).2 hFree) hAdd]
    refine ⟨hafter, ?_⟩
    intro hsame
    rw [hafter] at hsame
    exact doStep_stale_handle env2 m2 tid2 status2 (by simp [hsame])

theorem doStep_handle_never_cleared_witness :
    (doStep (sampleEnv 0x10 0 CPUMode.ARM32 movInsn false true (Status.error (Failure.resume 3)))
        idleMachine 1 0).machine.singleStepBreakpoint = some 0x8004 ∧
    (doStep (sampleEnv 0x10 0x9001 CPUMode.ARM32 bxR0 true true Status.ok)
        (doStep (sampleEnv 0x10 0 CPUMode.ARM32 movInsn false true
          (Status.error (Failure.resume 3))) idleMachine 1 0).machine 1 0).status =
      Status.error Failure.singleStepBreakpointStillPresent :=
  ⟨((doStep_handle_never_cleared
      (sampleEnv 0x10 0 CPUMode.ARM32 movInsn false true (Status.error (Failure.resume 3)))
      (sampleEnv 0x10 0x9001 CPUMode.ARM32 bxR0 true true Status.ok) idleMachine
      (doStep (sampleEnv 0x10 0 CPUMode.ARM32 movInsn false true
        (Status.error (Failure.resume 3))) idleMachine 1 0).machine 1 0 1 0).2.2
      movInsn 0x8004 CPUMode.ARM32 (by decide) rfl rfl (by intro bp hbp; cases hbp) rfl).1,
   (((doStep_handle_never_cleared
      (sampleEnv 0x10 0 CPUMode.ARM32 movInsn false true (Status.error (Failure.resume 3)))
      (sampleEnv 0x10 0x9001 CPUMode.ARM32 bxR0 true true Status.ok) idleMachine
      (doStep (sampleEnv 0x10 0 CPUMode.ARM32 movInsn false true
        (Status.error (Failure.resume 3))) idleMachine 1 0).machine 1 0 1 0).2.2
      movInsn 0x8004 CPUMode.ARM32 (by decide) rfl rfl (by intro bp hbp; cases hbp) rfl).2
      rfl).2.2.2 ⟨bxR0, 0x9000, CPUMode.Thumb, by decide, rfl⟩⟩

/-! ## The two `step` entry points -/

theorem placeAndResume_machine_eq (env : Env) (m : Machine) (tid s1 s2 : Int)
    (addrAfterInsn : Nat) (targetMode : CPUMode) (calls : List Event) :
    (placeAndResume env m tid s1 addrAfterInsn targetMode calls).machine =
      (placeAndResume env m tid s2 addrAfterInsn targetMode calls).machine := by
  unfold placeAndResume
  split
  · rfl
  · split
    · split <;> rfl
    · split <;> rfl

theorem doStep_machine_eq (env : Env) (m : Machine) (tid s1 s2 : Int) :
    (doStep env m tid s1).machine = (doStep env m tid s2).machine := by
  rcases doStep_cases env m tid s1 with
    ⟨hno, e, calls, heq, _⟩ | ⟨insn, a, mode, hd, hr, heq⟩
  · rcases doStep_cases env m tid s2 with
      ⟨_, e', calls', heq', _⟩ | ⟨insn', a', mode', hd', hr', _⟩
    · rw [heq, heq']
    · exact absurd ⟨insn', a', mode', hd', hr'⟩ hno
  · rw [heq, doStep_of_decodesTo env m tid s2 insn hd, hr]
    exact placeAndResume_machine_eq env m tid s1 s2 a mode _

/-- C15: the two entry points are `doStep` on the thread's own id and differ only in
the resume code. `step()` passes `resume_code` of the last stop status; `step(status)`
is the same call as `step()` when `status` is `DEBUG_EXCEPTION_NOT_HANDLED` and passes
`0` for every other status. Whatever the status, both leave the same breakpoint table
and handle. -/
theorem step_entry_points (resume_code : Int → Int) (env : Env) (m : Machine)
    (thread : PlatformThread) :
    step resume_code env m thread =
      doStep env m thread.tid_ (resume_code thread.status_) ∧
    stepStatus resume_code env m thread EVENT_STATUS.DEBUG_EXCEPTION_NOT_HANDLED =
      step resume_code env m thread ∧
    (∀ id, stepStatus resume_code env m thread (EVENT_STATUS.other id) =
      doStep env m thread.tid_ 0) ∧
    (∀ status, (stepStatus resume_code env m thread status).machine =
      (step resume_code env m thread).machine) := by
  refine ⟨rfl, ?_, ?_, ?_⟩
  · simp [stepStatus, step]
  · intro id
    simp [stepStatus]
  · intro status
    unfold stepStatus step
    exact doStep_machine_eq env m thread.tid_ _ _

theorem step_entry_points_witness :
    stepStatus sampleResumeCode (sampleEnv 0x10 0 CPUMode.ARM32 movInsn false true Status.ok)
        idleMachine sampleThread (EVENT_STATUS.other 1) =
      doStep (sampleEnv 0x10 0 CPUMode.ARM32 movInsn false true Status.ok) idleMachine 7 0 :=
  (step_entry_points sampleResumeCode
    (sampleEnv 0x10 0 CPUMode.ARM32 movInsn false true Status.ok) idleMachine
    sampleThread).2.2.1 1

end DebuggerCorePlugin
